import Mathlib

/-!
Shallow embedding of the WATI webhook server (`src/server.js`) and proofs
about its event-normalization and reconciliation pipeline.

The embedding models:
- the inbound event shape (the JSON fields the handlers read),
- the Firestore collections the server touches (`whatsapp_messages`,
  `wati_webhook_events`, `whatsapp_attachments`, `webhook_responses`)
  as lists of typed documents,
- each event handler (`handleMessage`, `handleMediaMessage`,
  `handleTemplateMessage`, `handleSessionMessage`, `handleDeliveryStatus`,
  `handleReadStatus`),
- the `POST /webhook` pipeline (ledger append, switch dispatch, ledger
  annotate, try/catch → 200/500), and
- the `GET /api/messages/:waNumber` read path with its primary
  (filter + orderBy) and fallback (filter-only) queries, the timestamp
  conversion, and the final in-process sort.

Fallible awaits are modelled with `Except (StoreErr × Store)`: an error
carries the state at the moment of the throw, since in JavaScript the
side effects performed before the throw persist.  Environmental failures
(store unreachable) are injected through a `Faults` record, one flag per
awaited store call; deterministic failures (Firestore `update` on a
missing document, invalid arguments) are intrinsic to the operations.

`Date.now()` / `Timestamp.now()` is threaded as an explicit `now : Int`
parameter (milliseconds since epoch).
-/

/-- The media content types routed to `handleMediaMessage`
(`supportedMediaTypes` in the source). -/
def supportedMediaTypes : List String :=
  ["image", "audio", "video", "voice", "document", "sticker"]

/-- The JSON fields of an inbound WATI webhook event that the server
reads.  All fields other than `eventType` may be absent.  `subCaption`
models `event[event.type].caption`, the caption found on the sub-object
named by the media type.  `processedField` and `receivedAtField` model
payload keys literally named `processed` / `receivedAt`: the `/webhook`
route spreads the event into the ledger document and then overwrites
those two keys with its own metadata. -/
structure Event where
  eventType : String
  id : Option String
  waId : Option String
  text : Option String
  type : Option String
  timestamp : Option String
  data : Option String
  caption : Option String
  subCaption : Option String
  statusString : Option String
  created : Option String
  templateName : Option String
  processedField : Option Bool
  receivedAtField : Option String
  deriving Repr, DecidableEq

/-- The value stored in a message document's `timestamp` field.  The
handlers in this server always write a Firestore `Timestamp`
(`fsTimestamp`, carrying epoch milliseconds), but the read path at
`GET /api/messages` defensively handles documents whose `timestamp` is a
string, a number, or something else entirely (`invalid`). -/
inductive TsVal where
  | fsTimestamp : Int → TsVal
  | strVal : String → TsVal
  | numVal : Int → TsVal
  | invalid : TsVal
  deriving Repr, DecidableEq

/-- A document of the `whatsapp_messages` collection.  `docId` is the
Firestore document id (`doc.id`); the handlers use the event's `id` for
it.  Optional fields are absent (`none`) when the writing handler did
not set them. -/
structure MsgDoc where
  docId : String
  waId : Option String
  text : Option String
  type : Option String
  timestamp : TsVal
  status : Option String
  direction : Option String
  deliveredAt : Option Int
  readAt : Option Int
  templateName : Option String
  rawData : Option Event
  rawDeliveryData : Option Event
  rawReadData : Option Event
  deriving Repr, DecidableEq

/-- A document of the `whatsapp_attachments` collection, as built by
`handleMediaMessage`. -/
structure AttachmentDoc where
  caption : String
  sha256 : String
  attachment_id : String
  type : String
  whatsapp_message_id : Option String
  timestamp : Int
  attachment_url : String
  deriving Repr, DecidableEq

/-- A document of the `webhook_responses` log collection.  The source
stores a human-readable string (for attachments, a `JSON.stringify` of
the attachment payload); the exact rendered text is abstracted to a
short tag here, the logged raw event is kept. -/
structure ResponseLog where
  note : String
  rawData : Option Event
  timestamp : Int
  deriving Repr, DecidableEq

/-- The outcome object a handler returns (the `result` value the
`/webhook` route stores as `processingResult`).  Error message strings
carried by the JS objects are abstracted away. -/
inductive HandlerResult where
  | messageProcessed
  | templateProcessed
  | sessionMessageProcessed
  | deliveryStatusUpdated
  | readStatusUpdated
  | mediaProcessed (attachmentId : Nat) (mediaType : String)
  | mediaInsertFailed (mediaType : String)
  | unhandledMediaType (mediaType : Option String)
  | unhandled (eventType : String)
  deriving Repr, DecidableEq

/-- A document of the `wati_webhook_events` ledger collection.  The
route writes `{...event, receivedAt: Timestamp.now(), processed: false}`:
the event's fields are spread at the top level and the ledger's own
`receivedAt` / `processed` keys overwrite any payload keys of the same
name — hence this structure has no slot for the payload's
`processedField` / `receivedAtField`. -/
structure LedgerEntry where
  eventType : String
  id : Option String
  waId : Option String
  text : Option String
  type : Option String
  timestamp : Option String
  data : Option String
  caption : Option String
  subCaption : Option String
  statusString : Option String
  created : Option String
  templateName : Option String
  receivedAt : Int
  processed : Bool
  processingResult : Option HandlerResult
  deriving Repr, DecidableEq

/-- Builds the ledger document appended by
`db.collection('wati_webhook_events').add({...event, receivedAt: Timestamp.now(), processed: false})`. -/
def mkLedgerEntry (now : Int) (e : Event) : LedgerEntry :=
  { eventType := e.eventType
    id := e.id
    waId := e.waId
    text := e.text
    type := e.type
    timestamp := e.timestamp
    data := e.data
    caption := e.caption
    subCaption := e.subCaption
    statusString := e.statusString
    created := e.created
    templateName := e.templateName
    receivedAt := now
    processed := false
    processingResult := none }

/-- The Firestore collections this server touches. -/
structure Store where
  messages : List MsgDoc
  ledger : List LedgerEntry
  attachments : List AttachmentDoc
  responses : List ResponseLog
  deriving Repr, DecidableEq

/-- Errors a store call can throw. -/
inductive StoreErr where
  | notFound
  | failedPrecondition
  | unavailable
  | invalidArgument
  deriving Repr, DecidableEq

/-- Fault injection: one flag per awaited store call of the webhook
pipeline, `true` meaning that call throws (persistence layer
unreachable). -/
structure Faults where
  appendFails : Bool
  responsesAddFails : Bool
  attachmentAddFails : Bool
  messagesSetFails : Bool
  messagesUpdateFails : Bool
  annotateFails : Bool
  deriving Repr, DecidableEq

/-- The no-failure environment. -/
def noFaults : Faults :=
  { appendFails := false
    responsesAddFails := false
    attachmentAddFails := false
    messagesSetFails := false
    messagesUpdateFails := false
    annotateFails := false }

/-- Looks up a `whatsapp_messages` document by document id. -/
def findMessage (s : Store) (mid : String) : Option MsgDoc :=
  s.messages.find? (fun d => d.docId == mid)

/-- Models `db.collection('whatsapp_messages').doc(id).set(data)`:
create-or-replace, full overwrite of the addressed document. -/
def setMessage (s : Store) (doc : MsgDoc) : Store :=
  if s.messages.any (fun d => d.docId == doc.docId) then
    { s with messages := s.messages.map (fun d => if d.docId == doc.docId then doc else d) }
  else
    { s with messages := s.messages ++ [doc] }

/-- Marks ledger entry `idx` processed with the given result
(`eventRef.update({processed: true, processingResult: result})`). -/
def annotateAt : List LedgerEntry → Nat → HandlerResult → List LedgerEntry
  | [], _, _ => []
  | x :: xs, 0, r => { x with processed := true, processingResult := some r } :: xs
  | x :: xs, Nat.succ n, r => x :: annotateAt xs n r

/-! ### Character-list string operations, URL and date helpers

`handleMediaMessage` parses the media URL with WHATWG `new URL` plus
`querystring.parse`; the handlers parse integer timestamps with
`parseInt` and calendar strings with `new Date(...)`.  The models below
implement the subsets of those behaviours the server exercises —
absolute `http(s)` URLs, decimal integer strings, UTC ISO-8601 calendar
strings from 1970 on (percent-decoding, non-`Z` time zones, pre-epoch
instants and leading-junk `parseInt` inputs are out of scope; no claim
depends on them).  They work on `String.data` character lists with
structural recursion, so every definition evaluates on concrete
input. -/

/-- Splits a character list at every occurrence of `sep`
(`String.splitOn` with a one-character separator). -/
def splitOnChar (sep : Char) : List Char → List (List Char)
  | [] => [[]]
  | c :: cs =>
    if c = sep then [] :: splitOnChar sep cs
    else
      match splitOnChar sep cs with
      | [] => [[c]]
      | h :: t => (c :: h) :: t

/-- Decimal digit accumulation; `none` on any non-digit character. -/
def decDigits : List Char → Nat → Option Nat
  | [], acc => some acc
  | c :: cs, acc =>
    if c.isDigit then decDigits cs (acc * 10 + (c.toNat - 48)) else none

/-- Parses a nonempty all-digit character list as a natural number. -/
def parseNatChars (cs : List Char) : Option Nat :=
  if cs = [] then none else decDigits cs 0

/-- Model of JavaScript `parseInt` / numeric coercion on the decimal
integer strings this webhook carries (`none` models `NaN`). -/
def jsParseInt? (s : String) : Option Int :=
  match s.data with
  | [] => none
  | c :: cs =>
    if c = '-' then (parseNatChars cs).map (fun n => -(n : Int))
    else (parseNatChars (c :: cs)).map (fun n => (n : Int))

/-- Splits off the scheme of an absolute http(s) URL; `none` models
`new URL(u)` throwing for other inputs (in particular the empty
string). -/
def schemeRest (u : List Char) : Option (List Char) :=
  if "https://".data.isPrefixOf u then some (u.drop 8)
  else if "http://".data.isPrefixOf u then some (u.drop 7)
  else none

/-- The `pathname` and `search` (without its leading `?`) components of
an absolute http(s) URL, or `none` when `new URL` would throw. -/
def urlParts (u : String) : Option (List Char × List Char) :=
  match schemeRest u.data with
  | none => none
  | some rest =>
    if rest = [] then none
    else
      let hostPath := rest.takeWhile (fun c => c ≠ '?')
      let search := (rest.dropWhile (fun c => c ≠ '?')).drop 1
      let path := hostPath.dropWhile (fun c => c ≠ '/')
      some (if path = [] then "/".data else path, search)

/-- The value of the `fileName` query parameter, as
`parse(parsedUrl.search.slice(1)).fileName` would produce it. -/
def fileNameParam (search : List Char) : Option (List Char) :=
  ((splitOnChar '&' search).filterMap (fun kv =>
    match splitOnChar '=' kv with
    | [k, v] => if k = "fileName".data then some v else none
    | _ => none)).head?

/-- The attachment filename derivation of `handleMediaMessage`:
`fileName` query parameter, else last path segment, and — only when URL
parsing threw — last `/`-segment of the raw string, else a generated
`media_<now>` placeholder.  JavaScript `||` treats the empty string as
falsy, hence the explicit empty checks. -/
def extractFilename (now : Int) (dataUrl : String) : String :=
  match urlParts dataUrl with
  | some parts =>
    (match fileNameParam parts.2 with
    | some f =>
      if f = [] then String.mk ((splitOnChar '/' parts.1).getLastD []) else String.mk f
    | none => String.mk ((splitOnChar '/' parts.1).getLastD []))
  | none =>
    let fb := (splitOnChar '/' dataUrl.data).getLastD []
    if fb = [] then "media_" ++ toString now else String.mk fb

/-- Gregorian leap-year rule. -/
def isLeapYear (y : Nat) : Bool :=
  (y % 4 == 0 && y % 100 != 0) || y % 400 == 0

/-- Number of days of month `m` (1-based) of year `y`. -/
def daysInMonth (y m : Nat) : Nat :=
  if m = 2 then (if isLeapYear y then 29 else 28)
  else if m = 4 ∨ m = 6 ∨ m = 9 ∨ m = 11 then 30
  else 31

/-- Days from 1970-01-01 to the civil date `y-m-d` (1-based month and
day). -/
def daysSinceEpoch (y m d : Nat) : Nat :=
  (List.range (y - 1970)).foldl (fun acc i => acc + (if isLeapYear (1970 + i) then 366 else 365)) 0
  + (List.range (m - 1)).foldl (fun acc mm => acc + daysInMonth y (mm + 1)) 0
  + (d - 1)

/-- Parses `YYYY-MM-DD` with range validation, years 1970 and later. -/
def parseDateOnly (ds : List Char) : Option (Nat × Nat × Nat) :=
  match splitOnChar '-' ds with
  | [ys, ms, dss] =>
    (match parseNatChars ys, parseNatChars ms, parseNatChars dss with
    | some y, some mo, some dy =>
      if 1970 ≤ y && 1 ≤ mo && mo ≤ 12 && 1 ≤ dy && dy ≤ daysInMonth y mo then
        some (y, mo, dy)
      else none
    | _, _, _ => none)
  | _ => none

/-- Parses `HH:MM:SS` or `HH:MM:SS.mmm` to milliseconds within the
day. -/
def parseClock (t : List Char) : Option Nat :=
  match splitOnChar ':' t with
  | [hh, mm, rest] =>
    (match parseNatChars hh, parseNatChars mm with
    | some h, some mn =>
      (match splitOnChar '.' rest with
      | [ss] =>
        (match parseNatChars ss with
        | some sec =>
          if h < 24 && mn < 60 && sec < 60 then
            some (((h * 60 + mn) * 60 + sec) * 1000)
          else none
        | none => none)
      | [ss, fs] =>
        (match parseNatChars ss, parseNatChars fs with
        | some sec, some msec =>
          if h < 24 && mn < 60 && sec < 60 && msec < 1000 then
            some (((h * 60 + mn) * 60 + sec) * 1000 + msec)
          else none
        | _, _ => none)
      | _ => none)
    | _, _ => none)
  | _ => none

/-- Model of `new Date(s).getTime()` on calendar strings: epoch
milliseconds for a recognized UTC ISO-8601 string, `none` for `NaN`
(unrecognized input). -/
def jsDateMillis (s : String) : Option Int :=
  match splitOnChar 'T' s.data with
  | [ds] => (parseDateOnly ds).map (fun ymd => (daysSinceEpoch ymd.1 ymd.2.1 ymd.2.2 : Int) * 86400000)
  | [ds, ts] =>
    let core := if ts.getLast? = some 'Z' then ts.dropLast else ts
    (match parseDateOnly ds, parseClock core with
    | some ymd, some clock =>
      some ((daysSinceEpoch ymd.1 ymd.2.1 ymd.2.2 : Int) * 86400000 + (clock : Int))
    | _, _ => none)
  | _ => none

/-- Left-pads a numeral with zeroes. -/
def padZ (width n : Nat) : String :=
  let s := toString n
  if s.length < width then String.mk (List.replicate (width - s.length) '0') ++ s else s

/-- Fuelled year extraction for ISO formatting: returns the civil year
containing day number `days` (counted from 1970-01-01) and the day
offset within it. -/
def yearOfDays : Nat → Nat → Nat → Nat × Nat
  | 0, y, days => (y, days)
  | Nat.succ fuel, y, days =>
    let len := if isLeapYear y then 366 else 365
    if days < len then (y, days) else yearOfDays fuel (y + 1) (days - len)

/-- Fuelled month extraction within year `y`. -/
def monthOfDays : Nat → Nat → Nat → Nat → Nat × Nat
  | 0, _, m, days => (m, days)
  | Nat.succ fuel, y, m, days =>
    let len := daysInMonth y m
    if days < len then (m, days) else monthOfDays fuel y (m + 1) (days - len)

/-- Model of `new Date(ms).toISOString()` for post-epoch instants
(pre-epoch instants are clamped to the epoch; the server only formats
timestamps it has itself normalized). -/
def formatIso (ms : Int) : String :=
  let n := ms.toNat
  let days := n / 86400000
  let rem := n % 86400000
  let yd := yearOfDays 400000 1970 days
  let md := monthOfDays 12 yd.1 1 yd.2
  padZ 4 yd.1 ++ "-" ++ padZ 2 md.1 ++ "-" ++ padZ 2 (md.2 + 1) ++ "T" ++
    padZ 2 (rem / 3600000) ++ ":" ++ padZ 2 (rem / 60000 % 60) ++ ":" ++
    padZ 2 (rem / 1000 % 60) ++ "." ++ padZ 3 (rem % 1000) ++ "Z"

/-! ### Event handlers

Each handler is the direct translation of its JavaScript namesake.
`parseInt(event.timestamp)` on the decimal integer strings WATI sends is
modelled by `jsParseInt?`; when the result is `NaN`,
`Timestamp.fromMillis` throws (firebase-admin validates its argument),
modelled as `StoreErr.invalidArgument`.  Likewise `.doc(undefined)`
throws when the event has no `id`. -/

/-- Result type of one awaited pipeline step: on error, the state at the
moment of the throw is kept (side effects before the throw persist). -/
abbrev StepResult (α : Type) := Except (StoreErr × Store) (Store × α)

/-- Translation of `handleMessage` (plain incoming message):
create-or-replace of the message document keyed by `event.id`, status
`received`, direction `incoming`, timestamp `parseInt(ts) * 1000` or
ingestion time. -/
def handleMessage (f : Faults) (s : Store) (now : Int) (e : Event) : StepResult HandlerResult :=
  match e.id with
  | none => .error (.invalidArgument, s)
  | some mid =>
    match e.timestamp with
    | some t =>
      (match jsParseInt? t with
      | none => .error (.invalidArgument, s)
      | some n =>
        if f.messagesSetFails then .error (.unavailable, s)
        else
          .ok (setMessage s
            { docId := mid, waId := e.waId, text := e.text, type := e.type
              timestamp := .fsTimestamp (n * 1000)
              status := some "received", direction := some "incoming"
              deliveredAt := none, readAt := none, templateName := none
              rawData := some e, rawDeliveryData := none, rawReadData := none },
            .messageProcessed))
    | none =>
      if f.messagesSetFails then .error (.unavailable, s)
      else
        .ok (setMessage s
          { docId := mid, waId := e.waId, text := e.text, type := e.type
            timestamp := .fsTimestamp now
            status := some "received", direction := some "incoming"
            deliveredAt := none, readAt := none, templateName := none
            rawData := some e, rawDeliveryData := none, rawReadData := none },
          .messageProcessed)

/-- Translation of `handleMediaMessage`: guard on the media-type set,
filename and caption resolution, a `webhook_responses` log write
(awaited, uncaught), then the `whatsapp_attachments` insert inside its
own try/catch — its failure is absorbed into the degraded
`media_insert_failed` result.  No `whatsapp_messages` document is
written. -/
def handleMediaMessage (f : Faults) (s : Store) (now : Int) (e : Event) : StepResult HandlerResult :=
  match e.type with
  | some mt =>
    if supportedMediaTypes.contains mt then
      let dataUrl := e.data.getD ""
      let filename := extractFilename now dataUrl
      let cap := match e.subCaption with
        | some c => c
        | none => match e.caption with
          | some c => c
          | none => ""
      let att : AttachmentDoc :=
        { caption := cap, sha256 := dataUrl, attachment_id := filename, type := mt
          whatsapp_message_id := e.id, timestamp := now, attachment_url := dataUrl }
      if f.responsesAddFails then .error (.unavailable, s)
      else
        let s1 := { s with responses := s.responses ++ [{ note := "attachment_handled", rawData := none, timestamp := now }] }
        if f.attachmentAddFails then .ok (s1, .mediaInsertFailed mt)
        else .ok ({ s1 with attachments := s1.attachments ++ [att] },
                  .mediaProcessed s1.attachments.length mt)
    else
      if f.responsesAddFails then .error (.unavailable, s)
      else .ok ({ s with responses := s.responses ++ [{ note := "unhandled_type", rawData := some e, timestamp := now }] },
                .unhandledMediaType e.type)
  | none =>
    if f.responsesAddFails then .error (.unavailable, s)
    else .ok ({ s with responses := s.responses ++ [{ note := "unhandled_type", rawData := some e, timestamp := now }] },
              .unhandledMediaType e.type)

/-- The status derivation `event.statusString?.toLowerCase() || 'sent'`
shared by the template and session handlers (the empty string is falsy
in JavaScript, hence also defaults). -/
def statusOrSent (st : Option String) : String :=
  match st with
  | some v => if v = "" then "sent" else v.toLower
  | none => "sent"

/-- Translation of `handleTemplateMessage`: outgoing template record,
status from `statusString` lower-cased defaulting to `sent`, timestamp
from `event.created` (calendar parse) or ingestion time. -/
def handleTemplateMessage (f : Faults) (s : Store) (now : Int) (e : Event) : StepResult HandlerResult :=
  match e.id with
  | none => .error (.invalidArgument, s)
  | some mid =>
    match e.created with
    | some c =>
      (match jsDateMillis c with
      | none => .error (.invalidArgument, s)
      | some ms =>
        if f.messagesSetFails then .error (.unavailable, s)
        else
          .ok (setMessage s
            { docId := mid, waId := e.waId, text := e.text, type := some "template"
              timestamp := .fsTimestamp ms
              status := some (statusOrSent e.statusString)
              direction := some "outgoing"
              deliveredAt := none, readAt := none, templateName := e.templateName
              rawData := some e, rawDeliveryData := none, rawReadData := none },
            .templateProcessed))
    | none =>
      if f.messagesSetFails then .error (.unavailable, s)
      else
        .ok (setMessage s
          { docId := mid, waId := e.waId, text := e.text, type := some "template"
            timestamp := .fsTimestamp now
            status := some (statusOrSent e.statusString)
            direction := some "outgoing"
            deliveredAt := none, readAt := none, templateName := e.templateName
            rawData := some e, rawDeliveryData := none, rawReadData := none },
          .templateProcessed)

/-- Translation of `handleSessionMessage`: outgoing session record,
timestamp from `new Date(event.timestamp)` (calendar parse) or ingestion
time. -/
def handleSessionMessage (f : Faults) (s : Store) (now : Int) (e : Event) : StepResult HandlerResult :=
  match e.id with
  | none => .error (.invalidArgument, s)
  | some mid =>
    match e.timestamp with
    | some t =>
      (match jsDateMillis t with
      | none => .error (.invalidArgument, s)
      | some ms =>
        if f.messagesSetFails then .error (.unavailable, s)
        else
          .ok (setMessage s
            { docId := mid, waId := e.waId, text := e.text, type := some "session"
              timestamp := .fsTimestamp ms
              status := some (statusOrSent e.statusString)
              direction := some "outgoing"
              deliveredAt := none, readAt := none, templateName := none
              rawData := some e, rawDeliveryData := none, rawReadData := none },
            .sessionMessageProcessed))
    | none =>
      if f.messagesSetFails then .error (.unavailable, s)
      else
        .ok (setMessage s
          { docId := mid, waId := e.waId, text := e.text, type := some "session"
            timestamp := .fsTimestamp now
            status := some (statusOrSent e.statusString)
            direction := some "outgoing"
            deliveredAt := none, readAt := none, templateName := none
            rawData := some e, rawDeliveryData := none, rawReadData := none },
          .sessionMessageProcessed)

/-- Translation of `handleDeliveryStatus`: Firestore `update` on the
document at `event.id` — a partial merge that throws `NOT_FOUND` when no
such document exists (no document is created in that case). -/
def handleDeliveryStatus (f : Faults) (s : Store) (_now : Int) (e : Event) : StepResult HandlerResult :=
  match e.id with
  | none => .error (.invalidArgument, s)
  | some mid =>
    match e.timestamp.bind jsParseInt? with
    | none => .error (.invalidArgument, s)
    | some n =>
      if f.messagesUpdateFails then .error (.unavailable, s)
      else if s.messages.any (fun d => d.docId == mid) then
        .ok ({ s with messages := s.messages.map (fun d =>
                 if d.docId == mid then
                   { d with status := some "delivered"
                            deliveredAt := some (n * 1000)
                            rawDeliveryData := some e }
                 else d) },
             .deliveryStatusUpdated)
      else .error (.notFound, s)

/-- Translation of `handleReadStatus`, symmetric to
`handleDeliveryStatus` with `readAt` / status `read`. -/
def handleReadStatus (f : Faults) (s : Store) (_now : Int) (e : Event) : StepResult HandlerResult :=
  match e.id with
  | none => .error (.invalidArgument, s)
  | some mid =>
    match e.timestamp.bind jsParseInt? with
    | none => .error (.invalidArgument, s)
    | some n =>
      if f.messagesUpdateFails then .error (.unavailable, s)
      else if s.messages.any (fun d => d.docId == mid) then
        .ok ({ s with messages := s.messages.map (fun d =>
                 if d.docId == mid then
                   { d with status := some "read"
                            readAt := some (n * 1000)
                            rawReadData := some e }
                 else d) },
             .readStatusUpdated)
      else .error (.notFound, s)

/-! ### Classification and the webhook pipeline -/

/-- Whether a `message` event carries a supported media content type
(`supportedMediaTypes.includes(event.type)`; `includes(undefined)` is
`false`). -/
def isMediaEvent (e : Event) : Bool :=
  match e.type with
  | some t => supportedMediaTypes.contains t
  | none => false

/-- The canonical event kinds of the classification. -/
inductive EventKind where
  | incomingMessage
  | incomingMedia
  | templateSent
  | sessionSent
  | delivered
  | readKind
  | unhandledKind
  deriving Repr, DecidableEq

/-- The classification performed by the `switch (event.eventType)` of
`POST /webhook`, including the second-level media routing inside the
`message` case and the `_v2` alias pairs sharing one case body. -/
def classifyEvent (e : Event) : EventKind :=
  if e.eventType = "message" then
    (if isMediaEvent e then .incomingMedia else .incomingMessage)
  else if e.eventType = "templateMessageSent" ∨ e.eventType = "templateMessageSent_v2" then
    .templateSent
  else if e.eventType = "sessionMessageSent" ∨ e.eventType = "sessionMessageSent_v2" then
    .sessionSent
  else if e.eventType = "sentMessageDELIVERED" ∨ e.eventType = "sentMessageDELIVERED_v2" then
    .delivered
  else if e.eventType = "sentMessageREAD" ∨ e.eventType = "sentMessageREAD_v2" then
    .readKind
  else
    .unhandledKind

/-- The dispatch of the `switch (event.eventType)`: selects and runs the
handler; the `default` case produces the `unhandled` result without any
store write. -/
def dispatchEvent (f : Faults) (s : Store) (now : Int) (e : Event) : StepResult HandlerResult :=
  if e.eventType = "message" then
    (if isMediaEvent e then handleMediaMessage f s now e else handleMessage f s now e)
  else if e.eventType = "templateMessageSent" ∨ e.eventType = "templateMessageSent_v2" then
    handleTemplateMessage f s now e
  else if e.eventType = "sessionMessageSent" ∨ e.eventType = "sessionMessageSent_v2" then
    handleSessionMessage f s now e
  else if e.eventType = "sentMessageDELIVERED" ∨ e.eventType = "sentMessageDELIVERED_v2" then
    handleDeliveryStatus f s now e
  else if e.eventType = "sentMessageREAD" ∨ e.eventType = "sentMessageREAD_v2" then
    handleReadStatus f s now e
  else
    .ok (s, .unhandled e.eventType)

/-- The ledger append
(`db.collection('wati_webhook_events').add({...event, receivedAt, processed: false})`);
returns the new entry's position as its id. -/
def ledgerAdd (f : Faults) (s : Store) (now : Int) (e : Event) : StepResult Nat :=
  if f.appendFails then .error (.unavailable, s)
  else .ok ({ s with ledger := s.ledger ++ [mkLedgerEntry now e] }, s.ledger.length)

/-- The ledger annotation
(`eventRef.update({processed: true, processingResult: result})`). -/
def annotateLedger (f : Faults) (s : Store) (idx : Nat) (r : HandlerResult) : Except (StoreErr × Store) Store :=
  if f.annotateFails then .error (.unavailable, s)
  else .ok { s with ledger := annotateAt s.ledger idx r }

/-- The HTTP reply of `POST /webhook`. -/
structure WebhookReply where
  status : Nat
  eventId : Option Nat
  deriving Repr, DecidableEq

/-- The `POST /webhook` route: ledger append, then the dispatch switch,
then the ledger annotation, inside one try/catch — any throw is answered
with 500 and leaves the state reached so far untouched. -/
def processWebhook (f : Faults) (s : Store) (now : Int) (e : Event) : WebhookReply × Store :=
  match ledgerAdd f s now e with
  | .error es => ({ status := 500, eventId := none }, es.2)
  | .ok (s1, idx) =>
    match dispatchEvent f s1 now e with
    | .error es => ({ status := 500, eventId := none }, es.2)
    | .ok (s2, result) =>
      match annotateLedger f s2 idx result with
      | .error es => ({ status := 500, eventId := none }, es.2)
      | .ok s3 => ({ status := 200, eventId := some idx }, s3)

/-! ### Sorting

`Array.prototype.sort` is stable (ECMA-262) and the route sorts with the
comparator `(a, b) => a.timestamp - b.timestamp`; Firestore returns
unordered query results in ascending document-id order and breaks
`orderBy` ties by the implicit trailing `__name__` (document id) sort
key.  All of these are modelled with one stable insertion sort
parameterized by a strict `Bool` comparator: an element is inserted
before the first position whose element is not strictly smaller, which
preserves the relative order of elements the comparator does not
separate. -/

/-- Stable insertion of `x`: before the first element not strictly below
`x`. -/
def insertBy {α : Type} (lt : α → α → Bool) (x : α) : List α → List α
  | [] => [x]
  | a :: l => if lt a x then a :: insertBy lt x l else x :: a :: l

/-- Stable insertion sort. -/
def sortBy {α : Type} (lt : α → α → Bool) : List α → List α
  | [] => []
  | a :: l => insertBy lt a (sortBy lt l)

/-! ### The `GET /api/messages/:waNumber` read path -/

/-- The defensive timestamp conversion of the read path, applied to each
document: a Firestore `Timestamp` is taken via `toMillis`; a string is
either `parseInt * 1000` (when `Number(s)` is not `NaN`; both modelled
on decimal integer strings by `jsParseInt?`) or a calendar parse
(which produces `NaN`, modelled as `none`, for unrecognized strings); a
number is taken as milliseconds when above `9999999999` and otherwise
multiplied by 1000; anything else falls back to `Date.now()`. -/
def computeTimestampMillis (now : Int) (t : TsVal) : Option Int :=
  match t with
  | .fsTimestamp ms => some ms
  | .strVal sv =>
    (match jsParseInt? sv with
    | some n => some (n * 1000)
    | none => jsDateMillis sv)
  | .numVal n => some (if n > 9999999999 then n else n * 1000)
  | .invalid => some now

/-- The view object the route returns per document (`timestamp = none`
models `NaN`; `formattedDate` falls back to the formatted current time
when `toISOString` throws on `NaN`). -/
structure MsgView where
  id : String
  text : Option String
  direction : Option String
  status : Option String
  timestamp : Option Int
  formattedDate : String
  waId : Option String
  deriving Repr, DecidableEq

/-- Projection of a stored document to the response view. -/
def toView (now : Int) (d : MsgDoc) : MsgView :=
  let tm := computeTimestampMillis now d.timestamp
  { id := d.docId
    text := d.text
    direction := d.direction
    status := d.status
    timestamp := tm
    formattedDate := formatIso (tm.getD now)
    waId := d.waId }

/-- The code-unit sequence of a string.  Firestore's document-id order
and the JavaScript string order are code-unit lexicographic; on the
ASCII ids this system uses, that is exactly the lexicographic order of
these code lists (used instead of `String` `<`, whose `Decidable`
instance does not reduce). -/
def charCodes (s : String) : List Nat := s.data.map Char.toNat

/-- Firestore's cross-type ordering of the values a `timestamp` field
may hold here (numbers sort before timestamps, timestamps before
strings); only the timestamp/timestamp case is relied upon by the
theorems below. -/
def tsValCmp (a b : TsVal) : Ordering :=
  match a, b with
  | .numVal x, .numVal y => if x < y then .lt else if x = y then .eq else .gt
  | .numVal _, _ => .lt
  | _, .numVal _ => .gt
  | .fsTimestamp x, .fsTimestamp y => if x < y then .lt else if x = y then .eq else .gt
  | .fsTimestamp _, _ => .lt
  | _, .fsTimestamp _ => .gt
  | .strVal x, .strVal y =>
    if charCodes x < charCodes y then .lt else if charCodes x = charCodes y then .eq else .gt
  | .strVal _, _ => .lt
  | _, .strVal _ => .gt
  | .invalid, .invalid => .eq

/-- The document order of the primary query
(`orderBy('timestamp', 'asc')` with Firestore's implicit trailing
document-id sort key). -/
def primaryLt (a b : MsgDoc) : Bool :=
  match tsValCmp a.timestamp b.timestamp with
  | .lt => true
  | .gt => false
  | .eq => decide (charCodes a.docId < charCodes b.docId)

/-- The default document order of an unordered Firestore query:
ascending document id. -/
def docIdLt (a b : MsgDoc) : Bool :=
  decide (charCodes a.docId < charCodes b.docId)

/-- The JavaScript comparator `(a, b) => a.timestamp - b.timestamp`
(comparisons involving `NaN` produce `NaN`, which `Array.sort` treats as
zero — not strictly smaller). -/
def viewTsLt (a b : MsgView) : Bool :=
  match a.timestamp, b.timestamp with
  | some x, some y => decide (x < y)
  | _, _ => false

/-- The documents matching `where('waId', '==', waNumber)`. -/
def matchingDocs (s : Store) (w : String) : List MsgDoc :=
  s.messages.filter (fun d => d.waId == some w)

/-- The primary query: filter, `orderBy('timestamp', 'asc')`,
`limit(50)`. -/
def primaryFetch (s : Store) (w : String) : List MsgDoc :=
  (sortBy primaryLt (matchingDocs s w)).take 50

/-- The fallback query used when the composite index is unavailable
(`queryError.code === 9`): filter only, `limit(50)`, documents in the
store's default (document-id) order. -/
def fallbackFetch (s : Store) (w : String) : List MsgDoc :=
  (sortBy docIdLt (matchingDocs s w)).take 50

/-- The shared tail of both branches: map the documents to view objects,
then `messages.sort((a, b) => a.timestamp - b.timestamp)`. -/
def renderMessages (now : Int) (docs : List MsgDoc) : List MsgView :=
  sortBy viewTsLt (docs.map (toView now))

/-- The `GET /api/messages/:waNumber` response body.  `indexReady`
selects between the primary query and the fallback taken when the
primary throws `FAILED_PRECONDITION` (index still building). -/
def getMessages (s : Store) (now : Int) (w : String) (indexReady : Bool) : List MsgView :=
  if indexReady then renderMessages now (primaryFetch s w)
  else renderMessages now (fallbackFetch s w)

/-! ### Generic facts about the stable insertion sort -/

section SortFacts

variable {α : Type}

theorem insertBy_perm (lt : α → α → Bool) (x : α) (l : List α) :
    List.Perm (insertBy lt x l) (x :: l) := by
  induction l with
  | nil => exact List.Perm.refl _
  | cons a l ih =>
    by_cases h : lt a x
    · simp only [insertBy, h, if_true]
      exact (ih.cons a).trans (List.Perm.swap x a l)
    · simp only [insertBy, h, if_false]
      exact List.Perm.refl _

theorem sortBy_perm (lt : α → α → Bool) (l : List α) :
    List.Perm (sortBy lt l) l := by
  induction l with
  | nil => exact List.Perm.refl _
  | cons a l ih => exact (insertBy_perm lt a (sortBy lt l)).trans (ih.cons a)

theorem sortBy_length (lt : α → α → Bool) (l : List α) :
    (sortBy lt l).length = l.length :=
  (sortBy_perm lt l).length_eq

theorem insertBy_congr (lt lt' : α → α → Bool) (x : α) (l : List α)
    (h : ∀ a ∈ l, lt a x = lt' a x) : insertBy lt x l = insertBy lt' x l := by
  induction l with
  | nil => rfl
  | cons a l ih =>
    have ha := h a (List.mem_cons_self a l)
    by_cases hc : lt a x = true
    · simp [insertBy, hc, ← ha, ih (fun b hb => h b (List.mem_cons_of_mem a hb))]
    · rw [Bool.not_eq_true] at hc
      simp [insertBy, hc, ← ha]

theorem sortBy_congr (lt lt' : α → α → Bool) (l : List α)
    (h : ∀ a ∈ l, ∀ b ∈ l, lt a b = lt' a b) : sortBy lt l = sortBy lt' l := by
  induction l with
  | nil => rfl
  | cons a l ih =>
    simp only [sortBy]
    rw [ih (fun b hb c hc => h b (List.mem_cons_of_mem a hb) c (List.mem_cons_of_mem a hc))]
    refine insertBy_congr lt lt' a (sortBy lt' l) (fun b hb => ?_)
    have hbl : b ∈ l := ((sortBy_perm lt' l).mem_iff).1 hb
    exact h b (List.mem_cons_of_mem a hbl) a (List.mem_cons_self a l)

/-- Non-strict sortedness for a strict `Bool` comparator: no later
element is strictly below an earlier one. -/
def SortedB (lt : α → α → Bool) (l : List α) : Prop :=
  l.Pairwise (fun a b => lt b a = false)

theorem insertBy_sorted (lt : α → α → Bool)
    (hasymm : ∀ a b, lt a b = true → lt b a = false)
    (hneg : ∀ a b c, lt a b = false → lt b c = false → lt a c = false)
    (x : α) (l : List α) (hl : SortedB lt l) : SortedB lt (insertBy lt x l) := by
  induction l with
  | nil => exact List.pairwise_singleton _ _
  | cons a l ih =>
    rcases List.pairwise_cons.1 hl with ⟨ha, hl'⟩
    by_cases hc : lt a x = true
    · simp only [insertBy, hc, if_true]
      refine List.pairwise_cons.2 ⟨fun b hb => ?_, ih hl'⟩
      rcases List.mem_cons.1 (((insertBy_perm lt x l).mem_iff).1 hb) with rfl | hbl
      · exact hasymm a b hc
      · exact ha b hbl
    · rw [Bool.not_eq_true] at hc
      simp only [insertBy, hc, Bool.false_eq_true, if_false]
      refine List.pairwise_cons.2 ⟨fun b hb => ?_, hl⟩
      rcases List.mem_cons.1 hb with rfl | hbl
      · exact hc
      · exact hneg b a x (ha b hbl) hc

theorem sortBy_sorted (lt : α → α → Bool)
    (hasymm : ∀ a b, lt a b = true → lt b a = false)
    (hneg : ∀ a b c, lt a b = false → lt b c = false → lt a c = false)
    (l : List α) : SortedB lt (sortBy lt l) := by
  induction l with
  | nil => exact List.Pairwise.nil
  | cons a l ih => exact insertBy_sorted lt hasymm hneg a (sortBy lt l) ih

theorem insertBy_eq_cons (lt : α → α → Bool) (x : α) (l : List α)
    (h : ∀ b ∈ l, lt b x = false) : insertBy lt x l = x :: l := by
  cases l with
  | nil => rfl
  | cons b t => simp [insertBy, h b (List.mem_cons_self b t)]

theorem sortBy_of_sorted (lt : α → α → Bool) (l : List α)
    (hl : SortedB lt l) : sortBy lt l = l := by
  induction l with
  | nil => rfl
  | cons a l ih =>
    rcases List.pairwise_cons.1 hl with ⟨ha, hl'⟩
    simp only [sortBy]
    rw [ih hl']
    exact insertBy_eq_cons lt a l ha

end SortFacts

/-! ### Keyed comparators: stability and uniqueness of the sorted order -/

section KeyedSortFacts

variable {α β γ : Type} [LinearOrder β] [LinearOrder γ]

/-- Comparator by a single key. -/
def keyLt (kf : α → β) (a b : α) : Bool := decide (kf a < kf b)

/-- Lexicographic comparator: a primary key with a tie-break key. -/
def lexLt (kf : α → β) (kg : α → γ) (a b : α) : Bool :=
  decide (kf a < kf b) || (decide (kf a = kf b) && decide (kg a < kg b))

theorem keyLt_asymm (kf : α → β) :
    ∀ a b, keyLt kf a b = true → keyLt kf b a = false := by
  intro a b h
  simp only [keyLt, decide_eq_true_eq] at h
  simp only [keyLt, decide_eq_false_iff_not, not_lt]
  exact h.le

theorem keyLt_negTrans (kf : α → β) :
    ∀ a b c, keyLt kf a b = false → keyLt kf b c = false → keyLt kf a c = false := by
  intro a b c h1 h2
  simp only [keyLt, decide_eq_false_iff_not, not_lt] at h1 h2 ⊢
  exact h2.trans h1

theorem lexLt_false (kf : α → β) (kg : α → γ) (a b : α) :
    lexLt kf kg a b = false ↔ (kf b ≤ kf a ∧ (kf a = kf b → kg b ≤ kg a)) := by
  simp only [lexLt, Bool.or_eq_false_iff, Bool.and_eq_false_iff,
    decide_eq_false_iff_not, not_lt]
  tauto

theorem lexLt_asymm (kf : α → β) (kg : α → γ) :
    ∀ a b, lexLt kf kg a b = true → lexLt kf kg b a = false := by
  intro a b h
  simp only [lexLt, Bool.or_eq_true, Bool.and_eq_true, decide_eq_true_eq] at h
  rw [lexLt_false]
  rcases h with h | ⟨he, hg⟩
  · exact ⟨h.le, fun hba => absurd (hba ▸ h) (lt_irrefl _)⟩
  · exact ⟨he.le, fun _ => hg.le⟩

theorem lexLt_negTrans (kf : α → β) (kg : α → γ) :
    ∀ a b c, lexLt kf kg a b = false → lexLt kf kg b c = false →
      lexLt kf kg a c = false := by
  intro a b c h1 h2
  rw [lexLt_false] at h1 h2 ⊢
  refine ⟨h2.1.trans h1.1, fun hac => ?_⟩
  have hab : kf a = kf b := le_antisymm (hac ▸ h2.1) h1.1
  exact (h2.2 (hab ▸ hac)).trans (h1.2 hab)

theorem insertBy_key_lex_sorted (kf : α → β) (kg : α → γ) (x : α) (S : List α)
    (hS : SortedB (lexLt kf kg) S) (hgx : ∀ b ∈ S, kg x ≤ kg b) :
    SortedB (lexLt kf kg) (insertBy (keyLt kf) x S) := by
  induction S with
  | nil => exact List.pairwise_singleton _ _
  | cons b S ih =>
    rcases List.pairwise_cons.1 hS with ⟨hb, hS'⟩
    by_cases hc : keyLt kf b x = true
    · simp only [insertBy, hc, if_true]
      refine List.pairwise_cons.2
        ⟨fun c hcmem => ?_, ih hS' (fun c hcm => hgx c (List.mem_cons_of_mem _ hcm))⟩
      rcases List.mem_cons.1 (((insertBy_perm _ x S).mem_iff).1 hcmem) with rfl | hcm
      · have hlt : kf b < kf c := by simpa [keyLt] using hc
        rw [lexLt_false]
        exact ⟨hlt.le, fun he => absurd (he ▸ hlt) (lt_irrefl _)⟩
      · exact hb c hcm
    · rw [Bool.not_eq_true] at hc
      have hbx : kf x ≤ kf b := by
        have := hc
        simp only [keyLt, decide_eq_false_iff_not, not_lt] at this
        exact this
      simp only [insertBy, hc, Bool.false_eq_true, if_false]
      refine List.pairwise_cons.2 ⟨fun c hcmem => ?_, hS⟩
      rcases List.mem_cons.1 hcmem with rfl | hcm
      · rw [lexLt_false]
        exact ⟨hbx, fun _ => hgx c (List.mem_cons_self _ _)⟩
      · have hcb := (lexLt_false kf kg c b).1 (hb c hcm)
        rw [lexLt_false]
        exact ⟨hbx.trans hcb.1, fun _ => hgx c (List.mem_cons_of_mem _ hcm)⟩

theorem sortBy_keyLt_stable (kf : α → β) (kg : α → γ) (l : List α)
    (hl : SortedB (keyLt kg) l) :
    SortedB (lexLt kf kg) (sortBy (keyLt kf) l) := by
  induction l with
  | nil => exact List.Pairwise.nil
  | cons a l ih =>
    rcases List.pairwise_cons.1 hl with ⟨ha, hl'⟩
    refine insertBy_key_lex_sorted kf kg a (sortBy (keyLt kf) l) (ih hl') ?_
    intro b hb
    have hbl : b ∈ l := ((sortBy_perm _ l).mem_iff).1 hb
    have := ha b hbl
    simp only [keyLt, decide_eq_false_iff_not, not_lt] at this
    exact this

theorem sorted_lex_perm_eq (kf : α → β) (kg : α → γ) (l1 : List α) :
    ∀ l2 : List α, List.Perm l1 l2 → SortedB (lexLt kf kg) l1 →
      SortedB (lexLt kf kg) l2 → (l1.map kg).Nodup → l1 = l2 := by
  induction l1 with
  | nil =>
    intro l2 hp _ _ _
    exact (hp.symm.eq_nil).symm
  | cons a t1 ih =>
    intro l2 hp h1 h2 hnd
    cases l2 with
    | nil => exact absurd hp.eq_nil (by simp)
    | cons b t2 =>
      have hab : a = b := by
        by_contra hne
        have hbmem : b ∈ t1 := by
          rcases List.mem_cons.1 (hp.mem_iff.2 (List.mem_cons_self b t2)) with h | h
          · exact absurd h.symm hne
          · exact h
        have hamem : a ∈ t2 := by
          rcases List.mem_cons.1 (hp.mem_iff.1 (List.mem_cons_self a t1)) with h | h
          · exact absurd h hne
          · exact h
        have hba := (lexLt_false kf kg b a).1 ((List.pairwise_cons.1 h1).1 b hbmem)
        have hab2 := (lexLt_false kf kg a b).1 ((List.pairwise_cons.1 h2).1 a hamem)
        have hkf : kf a = kf b := le_antisymm hba.1 hab2.1
        have hkg : kg a = kg b := le_antisymm (hba.2 hkf.symm) (hab2.2 hkf)
        have hmem : kg a ∈ t1.map kg := hkg ▸ List.mem_map.2 ⟨b, hbmem, rfl⟩
        exact (List.nodup_cons.1 (by simpa using hnd)).1 hmem
      subst hab
      have ht := ih t2 hp.cons_inv (List.pairwise_cons.1 h1).2 (List.pairwise_cons.1 h2).2
        (by simpa using (List.nodup_cons.1 (by simpa using hnd)).2)
      rw [ht]

end KeyedSortFacts

section SortMapFacts

variable {α α' : Type}

theorem insertBy_map (f : α → α') (lt : α → α → Bool) (lt' : α' → α' → Bool)
    (hcomp : ∀ a b, lt' (f a) (f b) = lt a b) (x : α) (l : List α) :
    insertBy lt' (f x) (l.map f) = (insertBy lt x l).map f := by
  induction l with
  | nil => rfl
  | cons a l ih =>
    by_cases hc : lt a x = true
    · simp [insertBy, hcomp, hc, ih]
    · rw [Bool.not_eq_true] at hc
      simp [insertBy, hcomp, hc]

theorem sortBy_map (f : α → α') (lt : α → α → Bool) (lt' : α' → α' → Bool)
    (hcomp : ∀ a b, lt' (f a) (f b) = lt a b) (l : List α) :
    sortBy lt' (l.map f) = (sortBy lt l).map f := by
  induction l with
  | nil => rfl
  | cons a l ih => simp only [List.map_cons, sortBy, ih, insertBy_map f lt lt' hcomp]

end SortMapFacts

/-! ### Read-path facts -/

/-- Whether a document's `timestamp` holds a Firestore `Timestamp` — the
shape every handler of this server writes. -/
def isFsTimestamp (d : MsgDoc) : Bool :=
  match d.timestamp with
  | .fsTimestamp _ => true
  | _ => false

/-- The milliseconds of a native-`Timestamp` document (0 as a
placeholder elsewhere; only used under `isFsTimestamp`). -/
def dMs (d : MsgDoc) : Int :=
  match d.timestamp with
  | .fsTimestamp n => n
  | _ => 0

/-- The document-id key (as its code-unit sequence). -/
def dId (d : MsgDoc) : List Nat := charCodes d.docId

/-- The final JavaScript sort comparator, read back through the view
projection onto documents. -/
def docViewLt (now : Int) (a b : MsgDoc) : Bool :=
  viewTsLt (toView now a) (toView now b)

theorem eq_fs_of_isFs (d : MsgDoc) (h : isFsTimestamp d = true) :
    d.timestamp = TsVal.fsTimestamp (dMs d) := by
  unfold isFsTimestamp at h
  unfold dMs
  cases ht : d.timestamp <;> simp [ht] at h ⊢

theorem docViewLt_eq_keyLt (now : Int) (a b : MsgDoc)
    (ha : isFsTimestamp a = true) (hb : isFsTimestamp b = true) :
    docViewLt now a b = keyLt dMs a b := by
  have ha' := eq_fs_of_isFs a ha
  have hb' := eq_fs_of_isFs b hb
  simp [docViewLt, viewTsLt, toView, computeTimestampMillis, keyLt, ha', hb']

theorem primaryLt_eq_lexLt (a b : MsgDoc)
    (ha : isFsTimestamp a = true) (hb : isFsTimestamp b = true) :
    primaryLt a b = lexLt dMs dId a b := by
  have ha' := eq_fs_of_isFs a ha
  have hb' := eq_fs_of_isFs b hb
  simp only [primaryLt, tsValCmp, ha', hb', lexLt, dId]
  by_cases h1 : dMs a < dMs b
  · simp [h1]
  · by_cases h2 : dMs a = dMs b
    · simp [h1, h2]
    · simp [h1, h2]

theorem docIdLt_eq_keyLt (a b : MsgDoc) : docIdLt a b = keyLt dId a b := by
  unfold docIdLt keyLt dId
  exact decide_eq_decide.2 Iff.rfl

theorem keyLt_false_of_lexLt_false {α β γ : Type} [LinearOrder β] [LinearOrder γ]
    (kf : α → β) (kg : α → γ) (a b : α) (h : lexLt kf kg a b = false) :
    keyLt kf a b = false := by
  rw [lexLt_false] at h
  simp only [keyLt, decide_eq_false_iff_not, not_lt]
  exact h.1

/-! ### Concrete stores used by the claim theorems -/

/-- A minimal `whatsapp_messages` document for counterparty `w`:
document ids `d00 … d50` ascend with `i` while timestamps descend. -/
def c5Doc (i : Nat) : MsgDoc :=
  { docId := "d" ++ padZ 2 i, waId := some "w", text := none, type := none
    timestamp := .fsTimestamp (51 - (i : Int)), status := none, direction := none
    deliveredAt := none, readAt := none, templateName := none
    rawData := none, rawDeliveryData := none, rawReadData := none }

/-- Fifty-one matching documents whose document-id order disagrees with
their timestamp order. -/
def c5CexStore : Store :=
  { messages := (List.range 51).map c5Doc, ledger := [], attachments := [], responses := [] }

/-- A two-document store for instantiating the amended read-path
equivalence. -/
def c5WitStore : Store :=
  { messages := [c5Doc 1, c5Doc 0], ledger := [], attachments := [], responses := [] }

/-- C5 (amended), helper-free statement: provided at most 50 documents
match the counterparty filter, every matching document carries a native
`Timestamp`, and stored document ids are unique, the fallback
(filter-only) path returns the same records as the primary
(filter + orderBy) path up to order, and the final response bodies are
identical. -/
theorem c5_read_paths_agree (s : Store) (now : Int) (w : String)
    (hnd : (s.messages.map dId).Nodup)
    (hfs : ∀ d ∈ matchingDocs s w, isFsTimestamp d = true)
    (h50 : (matchingDocs s w).length ≤ 50) :
    List.Perm (fallbackFetch s w) (primaryFetch s w) ∧
    getMessages s now w false = getMessages s now w true := by
  have hndl : ((matchingDocs s w).map dId).Nodup :=
    hnd.sublist (List.Sublist.map dId (List.filter_sublist s.messages))
  have hp50 : primaryFetch s w = sortBy primaryLt (matchingDocs s w) := by
    unfold primaryFetch
    rw [List.take_of_length_le]
    rw [sortBy_length]
    exact h50
  have hf50 : fallbackFetch s w = sortBy docIdLt (matchingDocs s w) := by
    unfold fallbackFetch
    rw [List.take_of_length_le]
    rw [sortBy_length]
    exact h50
  have hc1 : sortBy primaryLt (matchingDocs s w) = sortBy (lexLt dMs dId) (matchingDocs s w) :=
    sortBy_congr _ _ _ (fun a haa b hbb => primaryLt_eq_lexLt a b (hfs a haa) (hfs b hbb))
  have hc2 : sortBy docIdLt (matchingDocs s w) = sortBy (keyLt dId) (matchingDocs s w) :=
    sortBy_congr _ _ _ (fun a _ b _ => docIdLt_eq_keyLt a b)
  refine ⟨?_, ?_⟩
  · rw [hp50, hf50]
    exact (sortBy_perm _ _).trans (sortBy_perm _ _).symm
  · show renderMessages now (fallbackFetch s w) = renderMessages now (primaryFetch s w)
    rw [hp50, hf50, hc1, hc2]
    unfold renderMessages
    rw [sortBy_map (toView now) (docViewLt now) viewTsLt (fun a b => rfl),
        sortBy_map (toView now) (docViewLt now) viewTsLt (fun a b => rfl)]
    have hmem1 : ∀ a ∈ sortBy (keyLt dId) (matchingDocs s w), isFsTimestamp a = true :=
      fun a haa => hfs a (((sortBy_perm _ _).mem_iff).1 haa)
    have hmem2 : ∀ a ∈ sortBy (lexLt dMs dId) (matchingDocs s w), isFsTimestamp a = true :=
      fun a haa => hfs a (((sortBy_perm _ _).mem_iff).1 haa)
    have hX : sortBy (docViewLt now) (sortBy (keyLt dId) (matchingDocs s w)) =
        sortBy (keyLt dMs) (sortBy (keyLt dId) (matchingDocs s w)) :=
      sortBy_congr _ _ _
        (fun a haa b hbb => docViewLt_eq_keyLt now a b (hmem1 a haa) (hmem1 b hbb))
    have hY : sortBy (docViewLt now) (sortBy (lexLt dMs dId) (matchingDocs s w)) =
        sortBy (keyLt dMs) (sortBy (lexLt dMs dId) (matchingDocs s w)) :=
      sortBy_congr _ _ _
        (fun a haa b hbb => docViewLt_eq_keyLt now a b (hmem2 a haa) (hmem2 b hbb))
    have hsortedLex : SortedB (lexLt dMs dId) (sortBy (lexLt dMs dId) (matchingDocs s w)) :=
      sortBy_sorted _ (lexLt_asymm _ _) (lexLt_negTrans _ _) _
    have hsortedMs : SortedB (keyLt dMs) (sortBy (lexLt dMs dId) (matchingDocs s w)) :=
      hsortedLex.imp (fun h => keyLt_false_of_lexLt_false dMs dId _ _ h)
    have hYcollapse : sortBy (keyLt dMs) (sortBy (lexLt dMs dId) (matchingDocs s w)) =
        sortBy (lexLt dMs dId) (matchingDocs s w) :=
      sortBy_of_sorted _ _ hsortedMs
    have hsortedId : SortedB (keyLt dId) (sortBy (keyLt dId) (matchingDocs s w)) :=
      sortBy_sorted _ (keyLt_asymm dId) (keyLt_negTrans dId) _
    have hXsorted : SortedB (lexLt dMs dId)
        (sortBy (keyLt dMs) (sortBy (keyLt dId) (matchingDocs s w))) :=
      sortBy_keyLt_stable dMs dId _ hsortedId
    have hXperm : List.Perm (sortBy (keyLt dMs) (sortBy (keyLt dId) (matchingDocs s w)))
        (matchingDocs s w) :=
      (sortBy_perm _ _).trans (sortBy_perm _ _)
    have hXnd : ((sortBy (keyLt dMs) (sortBy (keyLt dId) (matchingDocs s w))).map dId).Nodup :=
      ((hXperm.map dId).nodup_iff).2 hndl
    have hfinal : sortBy (keyLt dMs) (sortBy (keyLt dId) (matchingDocs s w)) =
        sortBy (lexLt dMs dId) (matchingDocs s w) :=
      sorted_lex_perm_eq dMs dId _ _
        (hXperm.trans (sortBy_perm _ _).symm) hXsorted hsortedLex hXnd
    rw [hX, hY, hYcollapse, hfinal]

/-- C5, counterexample: with 51 matching documents whose id order
disagrees with their timestamp order, the fallback path selects a
different set of records than the primary path (each drops a different
document at the 50-record limit), and the two response bodies differ —
the claimed path equivalence fails as stated. -/
theorem c5_counterexample :
    (fallbackFetch c5CexStore "w").map dId ≠ (primaryFetch c5CexStore "w").map dId ∧
    (getMessages c5CexStore 0 "w" true).map (fun v => v.id) ≠
      (getMessages c5CexStore 0 "w" false).map (fun v => v.id) :=
  ⟨by decide, by decide⟩

/-- Witness for the amended C5 theorem at a concrete two-document
store stored out of document-id order. -/
theorem c5_read_paths_agree_witness :
    List.Perm (fallbackFetch c5WitStore "w") (primaryFetch c5WitStore "w") ∧
    getMessages c5WitStore 0 "w" false = getMessages c5WitStore 0 "w" true :=
  c5_read_paths_agree c5WitStore 0 "w" (by decide) (by decide) (by decide)

/-! ### Dispatch characterizations -/

/-- A list whose `find?` fails has no satisfying element, so `any` is
false. -/
theorem any_false_of_find?_none {α : Type} {p : α → Bool} {l : List α}
    (h : l.find? p = none) : l.any p = false := by
  rw [List.find?_eq_none] at h
  rw [List.any_eq_false]
  intro x hx
  simp [h x hx]

theorem dispatchEvent_delivered (f : Faults) (s : Store) (now : Int) (e : Event)
    (h : e.eventType = "sentMessageDELIVERED" ∨ e.eventType = "sentMessageDELIVERED_v2") :
    dispatchEvent f s now e = handleDeliveryStatus f s now e := by
  rcases h with h | h <;> simp [dispatchEvent, h]

theorem dispatchEvent_read (f : Faults) (s : Store) (now : Int) (e : Event)
    (h : e.eventType = "sentMessageREAD" ∨ e.eventType = "sentMessageREAD_v2") :
    dispatchEvent f s now e = handleReadStatus f s now e := by
  rcases h with h | h <;> simp [dispatchEvent, h]

theorem dispatchEvent_template (f : Faults) (s : Store) (now : Int) (e : Event)
    (h : e.eventType = "templateMessageSent" ∨ e.eventType = "templateMessageSent_v2") :
    dispatchEvent f s now e = handleTemplateMessage f s now e := by
  rcases h with h | h <;> simp [dispatchEvent, h]

theorem dispatchEvent_session (f : Faults) (s : Store) (now : Int) (e : Event)
    (h : e.eventType = "sessionMessageSent" ∨ e.eventType = "sessionMessageSent_v2") :
    dispatchEvent f s now e = handleSessionMessage f s now e := by
  rcases h with h | h <;> simp [dispatchEvent, h]

theorem dispatchEvent_message (f : Faults) (s : Store) (now : Int) (e : Event)
    (h : e.eventType = "message") :
    dispatchEvent f s now e =
      (if isMediaEvent e then handleMediaMessage f s now e else handleMessage f s now e) := by
  simp [dispatchEvent, h]

/-! ### C1 — Delivered/Read events whose target record is missing -/

/-- The empty store. -/
def emptyStore : Store := { messages := [], ledger := [], attachments := [], responses := [] }

/-- A Delivered status event for id `m1`. -/
def c1Event : Event :=
  { eventType := "sentMessageDELIVERED", id := some "m1", waId := none, text := none
    type := none, timestamp := some "1700000500", data := none, caption := none
    subCaption := none, statusString := none, created := none, templateName := none
    processedField := none, receivedAtField := none }

/-- C1, counterexample: a Delivered event for an id with no stored
record is answered with HTTP 500 — not 200 — and its ledger entry stays
unprocessed with no recorded processing result, so the anomaly is not
ledgered as the claim states (the record is indeed not created). -/
theorem c1_counterexample :
    (processWebhook noFaults emptyStore 0 c1Event).1.status = 500 ∧
    (processWebhook noFaults emptyStore 0 c1Event).2.messages = [] ∧
    (processWebhook noFaults emptyStore 0 c1Event).2.ledger.map
      (fun en => (en.processed, en.processingResult)) = [(false, none)] := by
  refine ⟨rfl, rfl, rfl⟩

/-- C1 (amended): for every inbound Delivered or Read status-update
event whose id has no existing record, processing creates no record —
but the Firestore `update` failure propagates: the HTTP response is 500
(a transport failure), and the freshly appended ledger entry remains
unprocessed with no recorded failure detail. -/
theorem c1_missing_target (s : Store) (now : Int) (e : Event) (mid : String)
    (hty : e.eventType = "sentMessageDELIVERED" ∨ e.eventType = "sentMessageDELIVERED_v2" ∨
      e.eventType = "sentMessageREAD" ∨ e.eventType = "sentMessageREAD_v2")
    (hid : e.id = some mid)
    (hmiss : findMessage s mid = none) :
    (processWebhook noFaults s now e).1.status = 500 ∧
    (processWebhook noFaults s now e).2.messages = s.messages ∧
    (processWebhook noFaults s now e).2.ledger = s.ledger ++ [mkLedgerEntry now e] ∧
    (mkLedgerEntry now e).processed = false ∧
    (mkLedgerEntry now e).processingResult = none := by
  have hany : s.messages.any (fun d => d.docId == mid) = false :=
    any_false_of_find?_none hmiss
  have hdisp : ∀ s' : Store, s'.messages = s.messages →
      (dispatchEvent noFaults s' now e = Except.error (StoreErr.invalidArgument, s') ∨
       dispatchEvent noFaults s' now e = Except.error (StoreErr.notFound, s')) := by
    intro s' hmsg
    have hany' : s'.messages.any (fun d => d.docId == mid) = false := by
      rw [hmsg]; exact hany
    have hroute : dispatchEvent noFaults s' now e = handleDeliveryStatus noFaults s' now e ∨
        dispatchEvent noFaults s' now e = handleReadStatus noFaults s' now e := by
      rcases hty with h | h | h | h
      · exact Or.inl (dispatchEvent_delivered _ _ _ _ (Or.inl h))
      · exact Or.inl (dispatchEvent_delivered _ _ _ _ (Or.inr h))
      · exact Or.inr (dispatchEvent_read _ _ _ _ (Or.inl h))
      · exact Or.inr (dispatchEvent_read _ _ _ _ (Or.inr h))
    rcases hroute with hr | hr <;> rw [hr]
    · cases ht : e.timestamp.bind jsParseInt? with
      | none => exact Or.inl (by simp [handleDeliveryStatus, hid, ht])
      | some n => exact Or.inr (by simp [handleDeliveryStatus, hid, ht, noFaults, hany'])
    · cases ht : e.timestamp.bind jsParseInt? with
      | none => exact Or.inl (by simp [handleReadStatus, hid, ht])
      | some n => exact Or.inr (by simp [handleReadStatus, hid, ht, noFaults, hany'])
  set s1 : Store := { s with ledger := s.ledger ++ [mkLedgerEntry now e] } with hs1
  have hstep := hdisp s1 rfl
  have hadd : ledgerAdd noFaults s now e = Except.ok (s1, s.ledger.length) := rfl
  have hrun : processWebhook noFaults s now e = ({ status := 500, eventId := none }, s1) := by
    unfold processWebhook
    rcases hstep with hstep | hstep <;> simp only [hadd, hstep]
  rw [hrun]
  exact ⟨rfl, rfl, rfl, rfl, rfl⟩

/-- Witness for the amended C1 theorem at the concrete Delivered event
against the empty store. -/
theorem c1_missing_target_witness :
    (processWebhook noFaults emptyStore 7 c1Event).1.status = 500 ∧
    (processWebhook noFaults emptyStore 7 c1Event).2.messages = emptyStore.messages ∧
    (processWebhook noFaults emptyStore 7 c1Event).2.ledger =
      emptyStore.ledger ++ [mkLedgerEntry 7 c1Event] ∧
    (mkLedgerEntry 7 c1Event).processed = false ∧
    (mkLedgerEntry 7 c1Event).processingResult = none :=
  c1_missing_target emptyStore 7 c1Event "m1" (Or.inl rfl) rfl rfl

/-! ### C2 — media events and the attachment side-effect -/

/-- Annotating the entry just appended at the end of the ledger. -/
theorem annotateAt_append (l : List LedgerEntry) (x : LedgerEntry) (r : HandlerResult) :
    annotateAt (l ++ [x]) l.length r =
      l ++ [{ x with processed := true, processingResult := some r }] := by
  induction l with
  | nil => rfl
  | cons a l ih => simp [annotateAt, ih]

/-- The §8 media scenario event: `eventType "message"`, type `image`,
id `m2`, media URL carrying `fileName=cat.jpg`. -/
def c2Event : Event :=
  { eventType := "message", id := some "m2", waId := some "27", text := none
    type := some "image", timestamp := none
    data := some "https://host/file?fileName=cat.jpg", caption := none
    subCaption := none, statusString := none, created := none, templateName := none
    processedField := none, receivedAtField := none }

/-- C2, counterexample: processing an inbound media event creates the
attachment entity but no Message Record at all — `whatsapp_messages`
stays empty — so the claimed "both a canonical Message Record and a
separate attachment entity" fails as stated. -/
theorem c2_counterexample :
    (processWebhook noFaults emptyStore 3 c2Event).1.status = 200 ∧
    (processWebhook noFaults emptyStore 3 c2Event).2.messages = [] ∧
    (processWebhook noFaults emptyStore 3 c2Event).2.attachments.map
      (fun a => (a.attachment_id, a.whatsapp_message_id)) = [("cat.jpg", some "m2")] :=
  ⟨rfl, rfl, rfl⟩

/-- C2 (amended): for every inbound media event, processing creates a
separate attachment entity but no Message Record (`whatsapp_messages` is
untouched); when only the attachment insert fails, the outcome is the
degraded success `media_insert_failed` — still answered 200 with the
ledger annotated processed — and there is no Message Record write to
roll back. -/
theorem c2_media_no_record (f : Faults) (s : Store) (now : Int) (e : Event) (mt : String)
    (hty : e.eventType = "message") (htype : e.type = some mt)
    (hmem : supportedMediaTypes.contains mt = true)
    (hf1 : f.appendFails = false) (hf2 : f.responsesAddFails = false)
    (hf3 : f.annotateFails = false) :
    (processWebhook f s now e).1.status = 200 ∧
    (processWebhook f s now e).2.messages = s.messages ∧
    (processWebhook f s now e).2.ledger = s.ledger ++
      [{ mkLedgerEntry now e with
           processed := true
           processingResult := some (if f.attachmentAddFails then
             HandlerResult.mediaInsertFailed mt
           else
             HandlerResult.mediaProcessed s.attachments.length mt) }] ∧
    (f.attachmentAddFails = true →
      (processWebhook f s now e).2.attachments = s.attachments) ∧
    (f.attachmentAddFails = false →
      ∃ att, (processWebhook f s now e).2.attachments = s.attachments ++ [att] ∧
        att.whatsapp_message_id = e.id ∧ att.type = mt) := by
  have hmem' : mt ∈ supportedMediaTypes := by simpa using hmem
  have hmedia : isMediaEvent e = true := by
    simp only [isMediaEvent, htype]
    exact hmem
  set entry := mkLedgerEntry now e with hentry
  set s1 : Store := { s with ledger := s.ledger ++ [entry] } with hs1
  have hadd : ledgerAdd f s now e = Except.ok (s1, s.ledger.length) := by
    simp [ledgerAdd, hf1]
  have hdispatch : dispatchEvent f s1 now e = handleMediaMessage f s1 now e := by
    rw [dispatchEvent_message f s1 now e hty, hmedia]
    simp
  cases hb : f.attachmentAddFails with
  | true =>
    have hhandle : handleMediaMessage f s1 now e =
        Except.ok ({ s1 with responses := s1.responses ++
          [{ note := "attachment_handled", rawData := none, timestamp := now }] },
          HandlerResult.mediaInsertFailed mt) := by
      simp [handleMediaMessage, htype, hmem', hf2, hb]
    have hann : annotateLedger f
        ({ s1 with responses := s1.responses ++
          [{ note := "attachment_handled", rawData := none, timestamp := now }] })
        s.ledger.length (HandlerResult.mediaInsertFailed mt) =
        Except.ok { messages := s.messages
                    ledger := s.ledger ++
                      [{ entry with
                           processed := true
                           processingResult := some (HandlerResult.mediaInsertFailed mt) }]
                    attachments := s.attachments
                    responses := s.responses ++
                      [{ note := "attachment_handled", rawData := none, timestamp := now }] } := by
      simp [annotateLedger, hf3, hs1, annotateAt_append]
    have hrun : processWebhook f s now e =
        ({ status := 200, eventId := some s.ledger.length },
         { messages := s.messages
           ledger := s.ledger ++
             [{ entry with
                  processed := true
                  processingResult := some (HandlerResult.mediaInsertFailed mt) }]
           attachments := s.attachments
           responses := s.responses ++
             [{ note := "attachment_handled", rawData := none, timestamp := now }] }) := by
      unfold processWebhook
      simp only [hadd, hdispatch, hhandle, hann]
    rw [hrun]
    refine ⟨rfl, rfl, by simp [hb], fun _ => rfl, fun hcon => by cases hcon⟩
  | false =>
    have hhandle : handleMediaMessage f s1 now e =
        Except.ok ({ messages := s.messages
                     ledger := s.ledger ++ [entry]
                     attachments := s.attachments ++
                       [{ caption := (match e.subCaption with
                            | some c => c
                            | none => (match e.caption with | some c => c | none => ""))
                          sha256 := e.data.getD ""
                          attachment_id := extractFilename now (e.data.getD "")
                          type := mt
                          whatsapp_message_id := e.id
                          timestamp := now
                          attachment_url := e.data.getD "" }]
                     responses := s.responses ++
                       [{ note := "attachment_handled", rawData := none, timestamp := now }] },
          HandlerResult.mediaProcessed s.attachments.length mt) := by
      simp [handleMediaMessage, htype, hmem', hf2, hb, hs1]
    have hann : annotateLedger f
        ({ messages := s.messages
           ledger := s.ledger ++ [entry]
           attachments := s.attachments ++
             [{ caption := (match e.subCaption with
                  | some c => c
                  | none => (match e.caption with | some c => c | none => ""))
                sha256 := e.data.getD ""
                attachment_id := extractFilename now (e.data.getD "")
                type := mt
                whatsapp_message_id := e.id
                timestamp := now
                attachment_url := e.data.getD "" }]
           responses := s.responses ++
             [{ note := "attachment_handled", rawData := none, timestamp := now }] })
        s.ledger.length (HandlerResult.mediaProcessed s.attachments.length mt) =
        Except.ok { messages := s.messages
                    ledger := s.ledger ++
                      [{ entry with
                           processed := true
                           processingResult :=
                             some (HandlerResult.mediaProcessed s.attachments.length mt) }]
                    attachments := s.attachments ++
                      [{ caption := (match e.subCaption with
                           | some c => c
                           | none => (match e.caption with | some c => c | none => ""))
                         sha256 := e.data.getD ""
                         attachment_id := extractFilename now (e.data.getD "")
                         type := mt
                         whatsapp_message_id := e.id
                         timestamp := now
                         attachment_url := e.data.getD "" }]
                    responses := s.responses ++
                      [{ note := "attachment_handled", rawData := none, timestamp := now }] } := by
      simp [annotateLedger, hf3, annotateAt_append]
    have hrun : processWebhook f s now e =
        ({ status := 200, eventId := some s.ledger.length },
         { messages := s.messages
           ledger := s.ledger ++
             [{ entry with
                  processed := true
                  processingResult :=
                    some (HandlerResult.mediaProcessed s.attachments.length mt) }]
           attachments := s.attachments ++
             [{ caption := (match e.subCaption with
                  | some c => c
                  | none => (match e.caption with | some c => c | none => ""))
                sha256 := e.data.getD ""
                attachment_id := extractFilename now (e.data.getD "")
                type := mt
                whatsapp_message_id := e.id
                timestamp := now
                attachment_url := e.data.getD "" }]
           responses := s.responses ++
             [{ note := "attachment_handled", rawData := none, timestamp := now }] }) := by
      unfold processWebhook
      simp only [hadd, hdispatch, hhandle, hann]
    rw [hrun]
    refine ⟨rfl, rfl, by simp [hb], ?_, ?_⟩
    · intro hcon
      cases hcon
    · intro h2
      exact ⟨_, rfl, rfl, rfl⟩

/-- Fault environment in which only the attachment insert fails. -/
def faultAttach : Faults := { noFaults with attachmentAddFails := true }

/-- Witness for the amended C2 theorem: the §8 media event against the
empty store, with the attachment insert failing. -/
theorem c2_media_no_record_witness :
    (processWebhook faultAttach emptyStore 3 c2Event).1.status = 200 ∧
    (processWebhook faultAttach emptyStore 3 c2Event).2.messages = emptyStore.messages ∧
    (processWebhook faultAttach emptyStore 3 c2Event).2.ledger = emptyStore.ledger ++
      [{ mkLedgerEntry 3 c2Event with
           processed := true
           processingResult := some (if faultAttach.attachmentAddFails then
             HandlerResult.mediaInsertFailed "image"
           else
             HandlerResult.mediaProcessed emptyStore.attachments.length "image") }] ∧
    (faultAttach.attachmentAddFails = true →
      (processWebhook faultAttach emptyStore 3 c2Event).2.attachments = emptyStore.attachments) ∧
    (faultAttach.attachmentAddFails = false →
      ∃ att, (processWebhook faultAttach emptyStore 3 c2Event).2.attachments =
          emptyStore.attachments ++ [att] ∧
        att.whatsapp_message_id = c2Event.id ∧ att.type = "image") :=
  c2_media_no_record faultAttach emptyStore 3 c2Event "image" rfl rfl (by decide) rfl rfl rfl

/-! ### C3 — timestamp normalization -/

/-- C3, counterexample: the epoch-milliseconds string
`"1700000000000"` exceeds 9,999,999,999 yet is still multiplied by 1000
— numeric strings are never treated as milliseconds, contradicting the
claimed magnitude rule for numeric strings. -/
theorem c3_counterexample :
    (9999999999 : Int) < 1700000000000 ∧
    computeTimestampMillis 0 (TsVal.strVal "1700000000000") ≠ some 1700000000000 ∧
    computeTimestampMillis 0 (TsVal.strVal "1700000000000") = some 1700000000000000 :=
  ⟨by decide, by decide, rfl⟩

/-- C3 (amended): the read-path normalizer multiplies every numeric
string by 1000 regardless of magnitude; the `> 9,999,999,999` rule
applies only to number-typed values; and for every input in
{native timestamp, numeric string, number, parseable calendar string,
absent/invalid}, it returns a value (absent/invalid defaults to `now`)
and never raises. -/
theorem c3_normalizer (now n m : Int) (sv : String) :
    (jsParseInt? sv = some n →
      computeTimestampMillis now (TsVal.strVal sv) = some (n * 1000)) ∧
    computeTimestampMillis now (TsVal.numVal n) =
      some (if n > 9999999999 then n else n * 1000) ∧
    computeTimestampMillis now (TsVal.fsTimestamp n) = some n ∧
    computeTimestampMillis now TsVal.invalid = some now ∧
    (jsParseInt? sv = none → jsDateMillis sv = some m →
      computeTimestampMillis now (TsVal.strVal sv) = some m) ∧
    ((jsParseInt? sv).isSome ∨ (jsDateMillis sv).isSome →
      (computeTimestampMillis now (TsVal.strVal sv)).isSome) := by
  refine ⟨?_, rfl, rfl, rfl, ?_, ?_⟩
  · intro h
    simp [computeTimestampMillis, h]
  · intro h1 h2
    simp [computeTimestampMillis, h1, h2]
  · intro h
    cases hp : jsParseInt? sv with
    | some k => simp [computeTimestampMillis, hp]
    | none =>
      rcases h with h | h
      · rw [hp] at h
        simp at h
      · simp only [computeTimestampMillis, hp]
        exact h

/-- Witness for the amended C3 theorem: an epoch-seconds string and an
ISO-8601 string, both normalized to 2023-11-14T22:13:20Z. -/
theorem c3_normalizer_witness :
    computeTimestampMillis 0 (TsVal.strVal "1700000000") = some 1700000000000 ∧
    computeTimestampMillis 0 (TsVal.strVal "2023-11-14T22:13:20Z") = some 1700000000000 := by
  have h1 := c3_normalizer 0 1700000000 0 "1700000000"
  have h2 := c3_normalizer 0 0 1700000000000 "2023-11-14T22:13:20Z"
  exact ⟨h1.1 (by decide), h2.2.2.2.2.1 (by decide) (by decide)⟩

/-! ### C4 — append-then-annotate audit trail -/

/-- A pipeline step outcome whose state carries the same ledger as the
input state (no handler ever touches `wati_webhook_events`). -/
def PreservesLedger (r : StepResult HandlerResult) (s : Store) : Prop :=
  match r with
  | .ok (s2, _) => s2.ledger = s.ledger
  | .error (_, s2) => s2.ledger = s.ledger

theorem setMessage_ledger (s : Store) (d : MsgDoc) : (setMessage s d).ledger = s.ledger := by
  unfold setMessage
  split <;> rfl

theorem handleMessage_preserves (f : Faults) (s : Store) (now : Int) (e : Event) :
    PreservesLedger (handleMessage f s now e) s := by
  unfold handleMessage
  cases hid : e.id with
  | none => exact rfl
  | some mid =>
    dsimp only
    cases ht : e.timestamp with
    | some t =>
      dsimp only
      cases hp : jsParseInt? t with
      | none => exact rfl
      | some n =>
        dsimp only
        cases hf : f.messagesSetFails with
        | true => exact rfl
        | false => exact setMessage_ledger s _
    | none =>
      cases hf : f.messagesSetFails with
      | true => exact rfl
      | false => exact setMessage_ledger s _

theorem handleMediaMessage_preserves (f : Faults) (s : Store) (now : Int) (e : Event) :
    PreservesLedger (handleMediaMessage f s now e) s := by
  unfold handleMediaMessage
  cases htype : e.type with
  | none =>
    cases hr : f.responsesAddFails with
    | true => exact rfl
    | false => exact rfl
  | some mt =>
    dsimp only
    cases hc : supportedMediaTypes.contains mt with
    | false =>
      cases hr : f.responsesAddFails with
      | true => exact rfl
      | false => exact rfl
    | true =>
      cases hr : f.responsesAddFails with
      | true => exact rfl
      | false =>
        cases hatt : f.attachmentAddFails with
        | true => exact rfl
        | false => exact rfl

theorem handleTemplateMessage_preserves (f : Faults) (s : Store) (now : Int) (e : Event) :
    PreservesLedger (handleTemplateMessage f s now e) s := by
  unfold handleTemplateMessage
  cases hid : e.id with
  | none => exact rfl
  | some mid =>
    dsimp only
    cases hc : e.created with
    | some c =>
      dsimp only
      cases hp : jsDateMillis c with
      | none => exact rfl
      | some ms =>
        dsimp only
        cases hf : f.messagesSetFails with
        | true => exact rfl
        | false => exact setMessage_ledger s _
    | none =>
      cases hf : f.messagesSetFails with
      | true => exact rfl
      | false => exact setMessage_ledger s _

theorem handleSessionMessage_preserves (f : Faults) (s : Store) (now : Int) (e : Event) :
    PreservesLedger (handleSessionMessage f s now e) s := by
  unfold handleSessionMessage
  cases hid : e.id with
  | none => exact rfl
  | some mid =>
    dsimp only
    cases ht : e.timestamp with
    | some t =>
      dsimp only
      cases hp : jsDateMillis t with
      | none => exact rfl
      | some ms =>
        dsimp only
        cases hf : f.messagesSetFails with
        | true => exact rfl
        | false => exact setMessage_ledger s _
    | none =>
      cases hf : f.messagesSetFails with
      | true => exact rfl
      | false => exact setMessage_ledger s _

theorem handleDeliveryStatus_preserves (f : Faults) (s : Store) (now : Int) (e : Event) :
    PreservesLedger (handleDeliveryStatus f s now e) s := by
  unfold handleDeliveryStatus
  cases hid : e.id with
  | none => exact rfl
  | some mid =>
    dsimp only
    cases ht : e.timestamp.bind jsParseInt? with
    | none => exact rfl
    | some n =>
      dsimp only
      cases hf : f.messagesUpdateFails with
      | true => exact rfl
      | false =>
        cases hany : s.messages.any (fun d => d.docId == mid) with
        | true => exact rfl
        | false => exact rfl

theorem handleReadStatus_preserves (f : Faults) (s : Store) (now : Int) (e : Event) :
    PreservesLedger (handleReadStatus f s now e) s := by
  unfold handleReadStatus
  cases hid : e.id with
  | none => exact rfl
  | some mid =>
    dsimp only
    cases ht : e.timestamp.bind jsParseInt? with
    | none => exact rfl
    | some n =>
      dsimp only
      cases hf : f.messagesUpdateFails with
      | true => exact rfl
      | false =>
        cases hany : s.messages.any (fun d => d.docId == mid) with
        | true => exact rfl
        | false => exact rfl

theorem dispatchEvent_preserves (f : Faults) (s : Store) (now : Int) (e : Event) :
    PreservesLedger (dispatchEvent f s now e) s := by
  unfold dispatchEvent
  split
  · split
    · exact handleMediaMessage_preserves f s now e
    · exact handleMessage_preserves f s now e
  · split
    · exact handleTemplateMessage_preserves f s now e
    · split
      · exact handleSessionMessage_preserves f s now e
      · split
        · exact handleDeliveryStatus_preserves f s now e
        · split
          · exact handleReadStatus_preserves f s now e
          · exact rfl

/-- Annotation changes one entry in place and keeps the ledger's
length. -/
theorem annotateAt_length (l : List LedgerEntry) (i : Nat) (r : HandlerResult) :
    (annotateAt l i r).length = l.length := by
  induction l generalizing i with
  | nil => rfl
  | cons a l ih =>
    cases i with
    | zero => simp [annotateAt]
    | succ n => simp [annotateAt, ih]

/-- A Delivered status event used to exercise a failing dispatch step. -/
def c4Event : Event :=
  { eventType := "sentMessageDELIVERED_v2", id := some "m9", waId := none, text := none
    type := none, timestamp := some "1700000900", data := none, caption := none
    subCaption := none, statusString := none, created := none, templateName := none
    processedField := none, receivedAtField := none }

/-- C4: for every inbound webhook event whose ledger append succeeds,
the entry (created `processed = false`) is appended before
classification runs — it is present in the final state however the
later steps end — and whenever the dispatch step throws, the response is
500 and that entry is never annotated: it remains exactly the
unprocessed `mkLedgerEntry`, with no processing result. -/
theorem c4_append_before_processing (f : Faults) (s : Store) (now : Int) (e : Event)
    (hf : f.appendFails = false) :
    (processWebhook f s now e).2.ledger.length = s.ledger.length + 1 ∧
    (∀ err s2,
      dispatchEvent f { s with ledger := s.ledger ++ [mkLedgerEntry now e] } now e =
        Except.error (err, s2) →
      (processWebhook f s now e).1.status = 500 ∧
      (processWebhook f s now e).2.ledger = s.ledger ++ [mkLedgerEntry now e] ∧
      (mkLedgerEntry now e).processed = false ∧
      (mkLedgerEntry now e).processingResult = none) := by
  set s1 : Store := { s with ledger := s.ledger ++ [mkLedgerEntry now e] } with hs1
  have hadd : ledgerAdd f s now e = Except.ok (s1, s.ledger.length) := by
    simp [ledgerAdd, hf]
  have hpres := dispatchEvent_preserves f s1 now e
  cases hd : dispatchEvent f s1 now e with
  | error es =>
    obtain ⟨err, s2⟩ := es
    have hledger2 : s2.ledger = s1.ledger := by
      rw [hd] at hpres
      exact hpres
    have hrun : processWebhook f s now e = ({ status := 500, eventId := none }, s2) := by
      unfold processWebhook
      simp only [hadd, hd]
    constructor
    · rw [hrun, hledger2]
      simp [hs1]
    · intro err' s2' _
      rw [hrun]
      refine ⟨rfl, ?_, rfl, rfl⟩
      rw [hledger2]
  | ok pair =>
    obtain ⟨s2, r⟩ := pair
    have hledger2 : s2.ledger = s1.ledger := by
      rw [hd] at hpres
      exact hpres
    cases ha : f.annotateFails with
    | true =>
      have hrun : processWebhook f s now e = ({ status := 500, eventId := none }, s2) := by
        unfold processWebhook
        simp only [hadd, hd]
        simp [annotateLedger, ha]
      constructor
      · rw [hrun, hledger2]
        simp [hs1]
      · intro err' s2' hd'
        cases hd'
    | false =>
      have hrun : processWebhook f s now e =
          ({ status := 200, eventId := some s.ledger.length },
           { s2 with ledger := annotateAt s2.ledger s.ledger.length r }) := by
        unfold processWebhook
        simp only [hadd, hd]
        simp [annotateLedger, ha]
      constructor
      · rw [hrun]
        show (annotateAt s2.ledger s.ledger.length r).length = s.ledger.length + 1
        rw [annotateAt_length, hledger2]
        simp [hs1]
      · intro err' s2' hd'
        cases hd'

/-- Witness for the C4 theorem: a Delivered event for a missing id, on
which the dispatch step does throw. -/
theorem c4_append_before_processing_witness :
    (processWebhook noFaults emptyStore 11 c4Event).2.ledger.length =
      emptyStore.ledger.length + 1 ∧
    (∀ err s2,
      dispatchEvent noFaults
          { emptyStore with ledger := emptyStore.ledger ++ [mkLedgerEntry 11 c4Event] }
          11 c4Event = Except.error (err, s2) →
      (processWebhook noFaults emptyStore 11 c4Event).1.status = 500 ∧
      (processWebhook noFaults emptyStore 11 c4Event).2.ledger =
        emptyStore.ledger ++ [mkLedgerEntry 11 c4Event] ∧
      (mkLedgerEntry 11 c4Event).processed = false ∧
      (mkLedgerEntry 11 c4Event).processingResult = none) :=
  c4_append_before_processing noFaults emptyStore 11 c4Event rfl

/-! ### C6 — idempotent ingestion of an IncomingMessage event -/

/-- Replacing every `p`-matching element by a `p`-matching document
keeps the number of matches. -/
theorem filter_length_map_replace {α : Type} (p : α → Bool) (doc : α)
    (hdoc : p doc = true) (l : List α) :
    (List.filter p (l.map (fun d => if p d then doc else d))).length =
      (l.filter p).length := by
  induction l with
  | nil => rfl
  | cons a l ih =>
    by_cases hp : p a = true
    · simp [hp, hdoc, ih]
    · rw [Bool.not_eq_true] at hp
      simp [hp, ih]

/-- C6: processing the same IncomingMessage event twice (at possibly
different ingestion instants) leaves exactly one stored document at the
event's id; the second write is a full create-or-replace of the first —
the message collection does not change at all — and the stored document
is exactly the projection of the event, with no merged leftovers.
`hwf` is the Firestore invariant that document ids are unique (at most
one existing document at the id). -/
theorem c6_idempotent_ingest (s : Store) (now1 now2 : Int) (e : Event)
    (mid : String) (t : String) (n : Int)
    (hty : e.eventType = "message") (hmedia : isMediaEvent e = false)
    (hid : e.id = some mid) (hts : e.timestamp = some t) (hn : jsParseInt? t = some n)
    (hwf : (s.messages.filter (fun d => d.docId == mid)).length ≤ 1) :
    (((processWebhook noFaults ((processWebhook noFaults s now1 e).2) now2 e).2).messages.filter
        (fun d => d.docId == mid)).length = 1 ∧
    ((processWebhook noFaults ((processWebhook noFaults s now1 e).2) now2 e).2).messages =
      ((processWebhook noFaults s now1 e).2).messages ∧
    findMessage ((processWebhook noFaults ((processWebhook noFaults s now1 e).2) now2 e).2) mid =
      some { docId := mid, waId := e.waId, text := e.text, type := e.type
             timestamp := TsVal.fsTimestamp (n * 1000), status := some "received"
             direction := some "incoming", deliveredAt := none, readAt := none
             templateName := none, rawData := some e, rawDeliveryData := none
             rawReadData := none } := by
  set p : MsgDoc → Bool := fun d => d.docId == mid with hp
  set theDoc : MsgDoc :=
    { docId := mid, waId := e.waId, text := e.text, type := e.type
      timestamp := TsVal.fsTimestamp (n * 1000), status := some "received"
      direction := some "incoming", deliveredAt := none, readAt := none
      templateName := none, rawData := some e, rawDeliveryData := none
      rawReadData := none } with hdoc
  have hpdoc : p theDoc = true := by simp [hp, hdoc]
  have hstep : ∀ (s' : Store) (now' : Int),
      (processWebhook noFaults s' now' e).2.messages =
        if s'.messages.any p then
          s'.messages.map (fun d => if p d then theDoc else d)
        else s'.messages ++ [theDoc] := by
    intro s' now'
    set s1' : Store := { s' with ledger := s'.ledger ++ [mkLedgerEntry now' e] } with hs1
    have hadd : ledgerAdd noFaults s' now' e = Except.ok (s1', s'.ledger.length) := rfl
    have hmsg : handleMessage noFaults s1' now' e =
        Except.ok (setMessage s1' theDoc, HandlerResult.messageProcessed) := by
      simp [handleMessage, hid, hts, hn, noFaults, hdoc]
    have hdisp : dispatchEvent noFaults s1' now' e = handleMessage noFaults s1' now' e := by
      rw [dispatchEvent_message _ _ _ _ hty, hmedia]
      simp
    have hann : annotateLedger noFaults (setMessage s1' theDoc) s'.ledger.length
        HandlerResult.messageProcessed =
        Except.ok { setMessage s1' theDoc with
          ledger := annotateAt (setMessage s1' theDoc).ledger s'.ledger.length
            HandlerResult.messageProcessed } := by
      simp [annotateLedger, noFaults]
    have hrun : processWebhook noFaults s' now' e =
        ({ status := 200, eventId := some s'.ledger.length },
         { setMessage s1' theDoc with
           ledger := annotateAt (setMessage s1' theDoc).ledger s'.ledger.length
             HandlerResult.messageProcessed }) := by
      unfold processWebhook
      rw [hadd]
      simp only [hdisp, hmsg, hann]
    rw [hrun]
    show (setMessage s1' theDoc).messages = _
    unfold setMessage
    have hm1 : s1'.messages = s'.messages := rfl
    have hd1 : theDoc.docId = mid := rfl
    split
    · simp only [hm1, hd1, hp]
    · simp only [hm1, hd1, hp]
  have h1 := hstep s now1
  set A : Store := (processWebhook noFaults s now1 e).2 with hA
  have hP : ∀ d ∈ A.messages, p d = true → d = theDoc := by
    intro d hd hpd
    rw [h1] at hd
    by_cases hany : s.messages.any p = true
    · rw [if_pos hany] at hd
      obtain ⟨x, hx, hgx⟩ := List.mem_map.1 hd
      by_cases hpx : p x = true
      · rw [if_pos hpx] at hgx
        exact hgx.symm
      · rw [if_neg hpx] at hgx
        rw [← hgx] at hpd
        exact absurd hpd hpx
    · rw [if_neg hany] at hd
      rcases List.mem_append.1 hd with hmem | hmem
      · exfalso
        rw [Bool.not_eq_true] at hany
        rw [List.any_eq_false] at hany
        exact (hany d hmem) hpd
      · simpa using hmem
  have hcount : (A.messages.filter p).length = 1 := by
    rw [h1]
    by_cases hany : s.messages.any p = true
    · rw [if_pos hany]
      rw [filter_length_map_replace p theDoc hpdoc]
      obtain ⟨x, hx, hpx⟩ := List.any_eq_true.1 hany
      have hxf : x ∈ s.messages.filter p := List.mem_filter.2 ⟨hx, hpx⟩
      have hpos : 0 < (s.messages.filter p).length := List.length_pos.2 (fun hnil => by simp [hnil] at hxf)
      omega
    · rw [if_neg hany]
      rw [Bool.not_eq_true] at hany
      rw [List.any_eq_false] at hany
      have hnil : s.messages.filter p = [] := List.filter_eq_nil_iff.2 (fun a ha => by
        intro hpa
        exact (hany a ha) hpa)
      rw [List.filter_append, hnil, List.nil_append]
      simp [hpdoc]
  have hex : ∃ x ∈ A.messages, p x = true := by
    have hlen : 0 < (A.messages.filter p).length := by rw [hcount]; norm_num
    obtain ⟨x, hx⟩ := List.exists_mem_of_length_pos hlen
    exact ⟨x, (List.mem_filter.1 hx).1, (List.mem_filter.1 hx).2⟩
  have hany1 : A.messages.any p = true := List.any_eq_true.2 hex
  have h2 := hstep A now2
  rw [if_pos hany1] at h2
  have hmapid : A.messages.map (fun d => if p d then theDoc else d) = A.messages := by
    have hcongr : ∀ d ∈ A.messages, (if p d then theDoc else d) = id d := by
      intro d hd
      by_cases hpd : p d = true
      · rw [if_pos hpd, hP d hd hpd]
        rfl
      · rw [if_neg hpd]
        rfl
    rw [List.map_congr_left hcongr, List.map_id]
  rw [hmapid] at h2
  refine ⟨by rw [h2]; exact hcount, h2, ?_⟩
  unfold findMessage
  rw [h2]
  show A.messages.find? p = some theDoc
  cases hfind : A.messages.find? p with
  | none =>
    rw [List.find?_eq_none] at hfind
    obtain ⟨x, hx, hpx⟩ := hex
    exact absurd hpx (by simpa using hfind x hx)
  | some x =>
    have hpx : p x = true := List.find?_some hfind
    have hxm : x ∈ A.messages := List.mem_of_find?_eq_some hfind
    rw [hP x hxm hpx]

/-- The §8 text-message scenario event. -/
def c6Event : Event :=
  { eventType := "message", id := some "m1", waId := some "27", text := some "hi"
    type := some "text", timestamp := some "1700000000", data := none, caption := none
    subCaption := none, statusString := none, created := none, templateName := none
    processedField := none, receivedAtField := none }

/-- Witness for the C6 theorem: the §8 text message submitted twice
against the empty store. -/
theorem c6_idempotent_ingest_witness :
    (((processWebhook noFaults ((processWebhook noFaults emptyStore 1 c6Event).2) 2
        c6Event).2).messages.filter (fun d => d.docId == "m1")).length = 1 ∧
    ((processWebhook noFaults ((processWebhook noFaults emptyStore 1 c6Event).2) 2
        c6Event).2).messages = ((processWebhook noFaults emptyStore 1 c6Event).2).messages ∧
    findMessage ((processWebhook noFaults ((processWebhook noFaults emptyStore 1 c6Event).2) 2
        c6Event).2) "m1" =
      some { docId := "m1", waId := c6Event.waId, text := c6Event.text, type := c6Event.type
             timestamp := TsVal.fsTimestamp (1700000000 * 1000), status := some "received"
             direction := some "incoming", deliveredAt := none, readAt := none
             templateName := none, rawData := some c6Event, rawDeliveryData := none
             rawReadData := none } :=
  c6_idempotent_ingest emptyStore 1 2 c6Event "m1" "1700000000" 1700000000
    rfl rfl rfl rfl (by decide) (by decide)

/-! ### C7 — version-suffixed aliases -/

/-- C7: each `_v2`-suffixed event-type string classifies to the same
event kind as its unsuffixed counterpart, and the dispatch invokes the
identical handler for both spellings. -/
theorem c7_version_aliases (f : Faults) (s : Store) (now : Int) (e : Event) :
    (classifyEvent { e with eventType := "templateMessageSent_v2" } =
        classifyEvent { e with eventType := "templateMessageSent" } ∧
      dispatchEvent f s now { e with eventType := "templateMessageSent_v2" } =
        handleTemplateMessage f s now { e with eventType := "templateMessageSent_v2" } ∧
      dispatchEvent f s now { e with eventType := "templateMessageSent" } =
        handleTemplateMessage f s now { e with eventType := "templateMessageSent" }) ∧
    (classifyEvent { e with eventType := "sessionMessageSent_v2" } =
        classifyEvent { e with eventType := "sessionMessageSent" } ∧
      dispatchEvent f s now { e with eventType := "sessionMessageSent_v2" } =
        handleSessionMessage f s now { e with eventType := "sessionMessageSent_v2" } ∧
      dispatchEvent f s now { e with eventType := "sessionMessageSent" } =
        handleSessionMessage f s now { e with eventType := "sessionMessageSent" }) ∧
    (classifyEvent { e with eventType := "sentMessageDELIVERED_v2" } =
        classifyEvent { e with eventType := "sentMessageDELIVERED" } ∧
      dispatchEvent f s now { e with eventType := "sentMessageDELIVERED_v2" } =
        handleDeliveryStatus f s now { e with eventType := "sentMessageDELIVERED_v2" } ∧
      dispatchEvent f s now { e with eventType := "sentMessageDELIVERED" } =
        handleDeliveryStatus f s now { e with eventType := "sentMessageDELIVERED" }) ∧
    (classifyEvent { e with eventType := "sentMessageREAD_v2" } =
        classifyEvent { e with eventType := "sentMessageREAD" } ∧
      dispatchEvent f s now { e with eventType := "sentMessageREAD_v2" } =
        handleReadStatus f s now { e with eventType := "sentMessageREAD_v2" } ∧
      dispatchEvent f s now { e with eventType := "sentMessageREAD" } =
        handleReadStatus f s now { e with eventType := "sentMessageREAD" }) := by
  refine ⟨⟨?_, ?_, ?_⟩, ⟨?_, ?_, ?_⟩, ⟨?_, ?_, ?_⟩, ⟨?_, ?_, ?_⟩⟩
  · simp [classifyEvent]
  · exact dispatchEvent_template f s now _ (Or.inr rfl)
  · exact dispatchEvent_template f s now _ (Or.inl rfl)
  · simp [classifyEvent]
  · exact dispatchEvent_session f s now _ (Or.inr rfl)
  · exact dispatchEvent_session f s now _ (Or.inl rfl)
  · simp [classifyEvent]
  · exact dispatchEvent_delivered f s now _ (Or.inr rfl)
  · exact dispatchEvent_delivered f s now _ (Or.inl rfl)
  · simp [classifyEvent]
  · exact dispatchEvent_read f s now _ (Or.inr rfl)
  · exact dispatchEvent_read f s now _ (Or.inl rfl)

/-! ### C9 — the undocumented 50-record response bound -/

/-- C9: on both the primary and the fallback read path, the response
contains at most 50 message records (both queries carry `limit(50)`). -/
theorem c9_response_limit (s : Store) (now : Int) (w : String) (ready : Bool) :
    (getMessages s now w ready).length ≤ 50 := by
  have h1 : ∀ docs : List MsgDoc, (renderMessages now docs).length = docs.length := by
    intro docs
    unfold renderMessages
    rw [sortBy_length, List.length_map]
  cases ready with
  | true =>
    show (renderMessages now (primaryFetch s w)).length ≤ 50
    rw [h1]
    unfold primaryFetch
    rw [List.length_take]
    exact Nat.min_le_left _ _
  | false =>
    show (renderMessages now (fallbackFetch s w)).length ≤ 50
    rw [h1]
    unfold fallbackFetch
    rw [List.length_take]
    exact Nat.min_le_left _ _

/-! ### C10 — the ledger spread overwrites payload metadata fields -/

/-- C10: the ledger entry carries the event's fields spread at the top
level (not nested under a `rawEvent` key), with the ledger's own
`processed`/`receivedAt` overwriting any payload keys of those names —
two inbound payloads differing only in their own `processed` /
`receivedAt` fields produce identical ledger entries, so those payload
fields are unrecoverable from the ledger. -/
theorem c10_ledger_spread_overwrites (now : Int) (e : Event) (p1 p2 : Option Bool)
    (r1 r2 : Option String) :
    (mkLedgerEntry now e).processed = false ∧
    (mkLedgerEntry now e).processingResult = none ∧
    (mkLedgerEntry now e).receivedAt = now ∧
    (mkLedgerEntry now e).eventType = e.eventType ∧
    (mkLedgerEntry now e).id = e.id ∧
    (mkLedgerEntry now e).waId = e.waId ∧
    (mkLedgerEntry now e).text = e.text ∧
    (mkLedgerEntry now e).type = e.type ∧
    (mkLedgerEntry now e).timestamp = e.timestamp ∧
    (mkLedgerEntry now e).data = e.data ∧
    mkLedgerEntry now { e with processedField := p1, receivedAtField := r1 } =
      mkLedgerEntry now { e with processedField := p2, receivedAtField := r2 } :=
  ⟨rfl, rfl, rfl, rfl, rfl, rfl, rfl, rfl, rfl, rfl, rfl⟩

/-! ### C8 — Delivered update against an existing record -/

/-- `find?` after an id-keyed in-place update: the found document is the
updated original. -/
theorem find?_map_update (mid : String) (upd : MsgDoc → MsgDoc)
    (hpres : ∀ d, (upd d).docId = d.docId) (old : MsgDoc) :
    ∀ l : List MsgDoc, l.find? (fun d => d.docId == mid) = some old →
    (l.map (fun d => if d.docId == mid then upd d else d)).find?
        (fun d => d.docId == mid) = some (upd old) := by
  intro l
  induction l with
  | nil => intro h; cases h
  | cons a l ih =>
    intro hfind
    by_cases hpa : (a.docId == mid) = true
    · have ha : a = old := by
        have h2 := hfind
        simp only [List.find?, hpa, cond_true] at h2
        injection h2
      subst ha
      rw [List.map_cons, if_pos hpa]
      have hupd : ((upd a).docId == mid) = true := by rw [hpres a]; exact hpa
      simp only [List.find?, hupd, cond_true]
    · have hpa' : (a.docId == mid) = false := by simpa using hpa
      have hfind' : l.find? (fun d => d.docId == mid) = some old := by
        have h2 := hfind
        simp only [List.find?, hpa', cond_false] at h2
        exact h2
      rw [List.map_cons, if_neg hpa]
      simp only [List.find?, hpa', cond_false]
      exact ih hfind'

/-- The §8 Delivered scenario event:
`{eventType: "sentMessageDELIVERED_v2", id: "m1", timestamp: "1700000500"}`. -/
def c8Event : Event :=
  { eventType := "sentMessageDELIVERED_v2", id := some "m1", waId := none, text := none
    type := none, timestamp := some "1700000500", data := none, caption := none
    subCaption := none, statusString := none, created := none, templateName := none
    processedField := none, receivedAtField := none }

/-- The field patch `handleDeliveryStatus` merges into the existing
document. -/
def deliveredUpdate (e : Event) (n : Int) (d : MsgDoc) : MsgDoc :=
  { d with status := some "delivered", deliveredAt := some (n * 1000), rawDeliveryData := some e }

/-- C8: applying the Delivered event with timestamp `"1700000500"` to a
store holding a record at `m1` answers 200, sets that record's status to
`delivered` and `deliveredAt` to 1700000500000, and leaves every other
stored field of the record (id, waId, text, type, timestamp, direction,
readAt, templateName, rawData) unchanged. -/
theorem c8_delivered_frame (s : Store) (now : Int) (old : MsgDoc)
    (hfind : findMessage s "m1" = some old) :
    (processWebhook noFaults s now c8Event).1.status = 200 ∧
    ∃ updated, findMessage (processWebhook noFaults s now c8Event).2 "m1" = some updated ∧
      updated.status = some "delivered" ∧
      updated.deliveredAt = some 1700000500000 ∧
      updated.rawDeliveryData = some c8Event ∧
      updated.docId = old.docId ∧
      updated.waId = old.waId ∧
      updated.text = old.text ∧
      updated.type = old.type ∧
      updated.timestamp = old.timestamp ∧
      updated.direction = old.direction ∧
      updated.readAt = old.readAt ∧
      updated.templateName = old.templateName ∧
      updated.rawData = old.rawData := by
  have hfind' : s.messages.find? (fun d => d.docId == "m1") = some old := hfind
  have hpold := List.find?_some hfind'
  have hmem := List.mem_of_find?_eq_some hfind'
  have hany : s.messages.any (fun d => d.docId == "m1") = true :=
    List.any_eq_true.2 ⟨old, hmem, hpold⟩
  set s1 : Store := { s with ledger := s.ledger ++ [mkLedgerEntry now c8Event] } with hs1
  set mapped : List MsgDoc := s1.messages.map
    (fun d => if d.docId == "m1" then deliveredUpdate c8Event 1700000500 d else d) with hmapped
  have hadd : ledgerAdd noFaults s now c8Event = Except.ok (s1, s.ledger.length) := rfl
  have hany1 : s1.messages.any (fun d => d.docId == "m1") = true := hany
  have hparse : jsParseInt? "1700000500" = some 1700000500 := by decide
  have hdel : handleDeliveryStatus noFaults s1 now c8Event =
      Except.ok ({ s1 with messages := mapped }, HandlerResult.deliveryStatusUpdated) := by
    simp only [handleDeliveryStatus, c8Event, Option.bind, hparse, noFaults, hany1,
      hmapped, deliveredUpdate]
    rfl
  have hdisp : dispatchEvent noFaults s1 now c8Event =
      handleDeliveryStatus noFaults s1 now c8Event :=
    dispatchEvent_delivered noFaults s1 now c8Event (Or.inr rfl)
  have hann : annotateLedger noFaults ({ s1 with messages := mapped })
      s.ledger.length HandlerResult.deliveryStatusUpdated =
      Except.ok { s1 with messages := mapped
                          ledger := annotateAt s1.ledger s.ledger.length
                            HandlerResult.deliveryStatusUpdated } := by
    simp only [annotateLedger, noFaults]
    rfl
  have hrun : processWebhook noFaults s now c8Event =
      ({ status := 200, eventId := some s.ledger.length },
       { s1 with messages := mapped
                 ledger := annotateAt s1.ledger s.ledger.length
                   HandlerResult.deliveryStatusUpdated }) := by
    unfold processWebhook
    rw [hadd]
    simp only [hdisp, hdel, hann]
  rw [hrun]
  refine ⟨rfl, deliveredUpdate c8Event 1700000500 old, ?_, rfl, by norm_num [deliveredUpdate],
    rfl, rfl, rfl, rfl, rfl, rfl, rfl, rfl, rfl, rfl⟩
  show mapped.find? (fun d => d.docId == "m1") = some (deliveredUpdate c8Event 1700000500 old)
  rw [hmapped]
  exact find?_map_update "m1" (deliveredUpdate c8Event 1700000500) (fun d => rfl) old
    s1.messages hfind'

/-- A concrete pre-existing record at id `m1` for the C8 witness. -/
def c8Doc : MsgDoc :=
  { docId := "m1", waId := some "27831234567", text := some "hello", type := some "text"
    timestamp := TsVal.fsTimestamp 1700000000000, status := some "received"
    direction := some "incoming", deliveredAt := none, readAt := none, templateName := none
    rawData := none, rawDeliveryData := none, rawReadData := none }

/-- A concrete store holding only `c8Doc` for the C8 witness. -/
def c8Store : Store :=
  { messages := [c8Doc], ledger := [], attachments := [], responses := [] }

/-- Witness for C8 at the concrete store `c8Store`. -/
theorem c8_delivered_frame_witness :
    findMessage c8Store "m1" = some c8Doc ∧
    ((processWebhook noFaults c8Store 5 c8Event).1.status = 200 ∧
     ∃ updated, findMessage (processWebhook noFaults c8Store 5 c8Event).2 "m1" = some updated ∧
       updated.status = some "delivered" ∧
       updated.deliveredAt = some 1700000500000 ∧
       updated.rawDeliveryData = some c8Event ∧
       updated.docId = c8Doc.docId ∧
       updated.waId = c8Doc.waId ∧
       updated.text = c8Doc.text ∧
       updated.type = c8Doc.type ∧
       updated.timestamp = c8Doc.timestamp ∧
       updated.direction = c8Doc.direction ∧
       updated.readAt = c8Doc.readAt ∧
       updated.templateName = c8Doc.templateName ∧
       updated.rawData = c8Doc.rawData) :=
  ⟨rfl, c8_delivered_frame c8Store 5 c8Doc rfl⟩
